import Mathlib

/-!
Verification of the homedash configuration synchronization and backup
subsystem.

The repository ships two server implementations:

* `server/server.js` (second concatenated variant, lines 656-1749): the full
  Express server with config validation, hash-gated conditional backups,
  retention pruning, path-traversal guards and merge-on-restore.  Modelled in
  namespace `Server`.
* the simple server embedded in `start-server.sh` (both embedded copies agree
  on the config/backup endpoints, lines 29-250 and 251-645): mtime-based
  change detection, unvalidated PUT, raw restore, no retention.  Modelled in
  namespace `Variant`, together with the icon proxy of the second copy.

JSON documents are modelled by the inductive `Json` below; JavaScript object
spread, property assignment and `JSON.stringify` with an array replacer are
modelled by `mergeFields`, `setKey` and `serialize`.  Wall-clock inputs
(`Date.now`, ISO timestamps, `Date` parsing) are passed in as explicit
parameters.  The sha256 digest is modelled by the serialized string it is
computed from: two digests in the code are equal exactly when the serialized
strings are (collisions aside), and every comparison the code performs is
between digests produced by this one function.
-/

namespace Homedash

/-- Lexicographic comparison of character lists by code point.  JavaScript
compares strings by UTF-16 code units; every string the modelled code sorts
or compares is ASCII, where the two orders coincide.  (Lean's built-in
`String` order is not kernel-computable, hence this explicit version.) -/
def charListLt : List Char → List Char → Bool
  | u :: us, w :: ws =>
    if u.toNat < w.toNat then true
    else if w.toNat < u.toNat then false
    else charListLt us ws
  | [], _ :: _ => true
  | _, [] => false

/-- JavaScript string `<`. -/
def strLtJs (a b : String) : Bool := charListLt a.toList b.toList

/-- JavaScript string `<=`, the order of a default `.sort()`. -/
def strLeJs (a b : String) : Bool := !(strLtJs b a)

/-- JavaScript `String.prototype.startsWith`. -/
def strStartsWith (s pre : String) : Bool := pre.toList.isPrefixOf s.toList

/-- Whether `pat` occurs as a contiguous sublist. -/
def listIncludes (pat : List Char) : List Char → Bool
  | [] => pat.isEmpty
  | c :: rest => pat.isPrefixOf (c :: rest) || listIncludes pat rest

/-- JavaScript `String.prototype.includes`. -/
def jsIncludes (s pat : String) : Bool := listIncludes pat.toList s.toList

/-- JSON value; objects keep their fields in insertion order, as JavaScript
objects do.  Numbers are modelled as integers: every number the modelled code
stores or compares (grid columns, cadence minutes, epoch milliseconds) is
integral. -/
inductive Json where
  | null
  | bool (b : Bool)
  | num (n : Int)
  | str (s : String)
  | arr (elems : List Json)
  | obj (fields : List (String × Json))
deriving Inhabited

namespace Json

mutual

/-- Structural equality test on JSON values. -/
def eqb : Json → Json → Bool
  | .bool p, .bool q => p == q
  | .null, .null => true
  | .str p, .str q => p == q
  | .num p, .num q => p == q
  | .obj ps, .obj qs => eqbFields ps qs
  | .arr ps, .arr qs => eqbElems ps qs
  | _, _ => false

/-- Pointwise equality test on JSON arrays. -/
def eqbElems : List Json → List Json → Bool
  | e :: es, f :: fs => eqb e f && eqbElems es fs
  | [], [] => true
  | _, _ => false

/-- Pointwise equality test on object field lists. -/
def eqbFields : List (String × Json) → List (String × Json) → Bool
  | (a, u) :: ps, (b, w) :: qs => a == b && eqb u w && eqbFields ps qs
  | [], [] => true
  | _, _ => false

end

/-- The boolean equality test decides propositional equality (proved by
induction on a size bound so that the nested lists can reuse the outer
induction hypothesis). -/
theorem eqb_iff_aux :
    ∀ (n : Nat) (a b : Json), sizeOf a ≤ n → (eqb a b = true ↔ a = b) := by
  intro n
  induction n with
  | zero =>
    intro a b h
    exfalso
    cases a <;> simp at h
  | succ n ih =>
    intro a b h
    cases a <;> cases b <;> simp only [eqb] <;> try simp
    case arr.arr xs ys =>
      have hxs : sizeOf xs ≤ n := by simp at h; omega
      clear h
      induction xs generalizing ys with
      | nil => cases ys <;> simp [eqbElems]
      | cons x xs ihl =>
        cases ys with
        | nil => simp [eqbElems]
        | cons y ys =>
          have h1 : sizeOf x ≤ n := by simp at hxs; omega
          have h2 : sizeOf xs ≤ n := by simp at hxs; omega
          simp [eqbElems, ih x y h1, ihl ys h2]
    case obj.obj fs gs =>
      have hfs : sizeOf fs ≤ n := by simp at h; omega
      clear h
      induction fs generalizing gs with
      | nil => cases gs <;> simp [eqbFields]
      | cons p fs ihl =>
        cases gs with
        | nil => simp [eqbFields]
        | cons q gs =>
          obtain ⟨k, v⟩ := p
          obtain ⟨k', v'⟩ := q
          have h1 : sizeOf v ≤ n := by simp at hfs; omega
          have h2 : sizeOf fs ≤ n := by simp at hfs; omega
          simp [eqbFields, ih v v' h1, ihl gs h2]

theorem eqb_iff (a b : Json) : eqb a b = true ↔ a = b :=
  eqb_iff_aux (sizeOf a) a b (Nat.le_refl _)

instance : DecidableEq Json := fun a b =>
  decidable_of_iff (eqb a b = true) (eqb_iff a b)

/-- Property lookup on an object's field list: first binding wins, as in a
JavaScript object (which cannot hold duplicate keys). -/
def lookupField (fs : List (String × Json)) (k : String) : Option Json :=
  match fs with
  | [] => none
  | (k', v) :: rest => if k' = k then some v else lookupField rest k

/-- Property access `o[k]`: `undefined` (here `none`) on anything that is not
an object with that key, matching access on a parsed JSON value. -/
def lookup (j : Json) (k : String) : Option Json :=
  match j with
  | .obj fs => lookupField fs k
  | _ => none

/-- JavaScript truthiness of a possibly-`undefined` value: `undefined`,
`null`, `false`, `0` and the empty string are falsy; arrays and objects are
always truthy. -/
def truthy : Option Json → Bool
  | none => false
  | some .null => false
  | some (.bool b) => b
  | some (.num n) => n != 0
  | some (.str s) => s ≠ ""
  | some (.arr _) => true
  | some (.obj _) => true

/-- Whether a possibly-`undefined` value is an array (`Array.isArray`). -/
def isArr : Option Json → Bool
  | some (.arr _) => true
  | _ => false

/-- Fields of an object, `[]` otherwise.  Used to model spreading `{...x}`:
every spread in the modelled code is applied to a parsed JSON object or to
`undefined`, and spreading `undefined` or `null` contributes nothing. -/
def fieldsOf : Json → List (String × Json)
  | .obj fs => fs
  | _ => []

/-- Fields of a possibly-`undefined` value. -/
def fieldsOfOpt : Option Json → List (String × Json)
  | some j => fieldsOf j
  | none => []

/-- Property write `o[k] = v` on a field list: an existing key keeps its
position and gets the new value, a new key is appended.  This is exactly the
JavaScript object-assignment ordering rule. -/
def setKey (fs : List (String × Json)) (k : String) (v : Json) :
    List (String × Json) :=
  match fs with
  | [] => [(k, v)]
  | (k', v') :: rest =>
    if k' = k then (k, v) :: rest else (k', v') :: setKey rest k v

/-- Spread merge `{...a, ...b}`: assign every field of `b` over `a` in order,
so overridden keys keep `a`'s position and fresh keys of `b` are appended. -/
def mergeFields (a b : List (String × Json)) : List (String × Json) :=
  b.foldl (fun acc p => setKey acc p.1 p.2) a

/-- Lower-case hexadecimal digit, for control-character escapes. -/
def hexDigit (n : Nat) : Char :=
  Char.ofNat (if n < 10 then n + '0'.toNat else n - 10 + 'a'.toNat)

/-- Escape one character as ECMA-262 QuoteJSONString does: quote, backslash,
the named control escapes, and a u-escape for the remaining control
characters. -/
def escapeChar (c : Char) : String :=
  if c = '"' then "\\\""
  else if c = '\\' then "\\\\"
  else if c = '\n' then "\\n"
  else if c = '\r' then "\\r"
  else if c = '\t' then "\\t"
  else if c.toNat = 8 then "\\b"
  else if c.toNat = 12 then "\\f"
  else if c.toNat < 32 then
    "\\u00" ++ String.singleton (hexDigit (c.toNat / 16)) ++
      String.singleton (hexDigit (c.toNat % 16))
  else String.singleton c

/-- JSON string quoting (ECMA-262 QuoteJSONString). -/
def quoteString (s : String) : String :=
  "\"" ++ String.join (s.toList.map escapeChar) ++ "\""

/-- Association lookup among already-serialized fields. -/
def lookupStr (rs : List (String × String)) (k : String) : Option String :=
  match rs with
  | [] => none
  | (k', v) :: rest => if k' = k then some v else lookupStr rest k

/-- Emit an object's members in the order of the replacer array `ks`
(ECMA-262 SerializeJSONObject with a PropertyList): each listed key that the
object carries contributes one member, everything else is dropped. -/
def selectFields (ks : List String) (rendered : List (String × String)) :
    List String :=
  ks.filterMap fun k =>
    (lookupStr rendered k).map fun sv => quoteString k ++ ":" ++ sv

mutual

/-- ECMA-262 `JSON.stringify(v, K)` for an array replacer `K` and no space
argument.  The PropertyList `K` filters and orders the members of every
object at every depth; arrays are serialized in full.  (The code serializes
each kept member on demand; rendering all members first and then selecting by
`K` yields the same string, since serialization is pure.) -/
def serialize (K : List String) : Json → String
  | .null => "null"
  | .bool b => if b then "true" else "false"
  | .num n => toString n
  | .str s => quoteString s
  | .arr es => "[" ++ String.intercalate "," (serializeList K es) ++ "]"
  | .obj fs =>
    "\x7b" ++ String.intercalate "," (selectFields K (renderFields K fs)) ++
      "\x7d"

/-- Serialize the elements of an array. -/
def serializeList (K : List String) : List Json → List String
  | [] => []
  | e :: es => serialize K e :: serializeList K es

/-- Serialize the value of every field of an object. -/
def renderFields (K : List String) : List (String × Json) → List (String × String)
  | [] => []
  | (k, v) :: fs => (k, serialize K v) :: renderFields K fs

end

/-- Sort an object's fields by key (ascending). -/
def sortFields (fs : List (String × Json)) : List (String × Json) :=
  List.insertionSort (fun a b => strLeJs a.1 b.1 = true) fs

mutual

/-- Canonical form of a JSON value: recursively sort every object's fields
by key.  Two values have the same canonical form exactly when one is the
other with object keys reinserted in a different order at any nesting
level. -/
def canon : Json → Json
  | .null => .null
  | .bool b => .bool b
  | .num n => .num n
  | .str s => .str s
  | .arr es => .arr (canonList es)
  | .obj fs => .obj (sortFields (canonFields fs))

/-- Canonical form of each array element. -/
def canonList : List Json → List Json
  | [] => []
  | e :: es => canon e :: canonList es

/-- Canonical form of each field value. -/
def canonFields : List (String × Json) → List (String × Json)
  | [] => []
  | (k, v) :: fs => (k, canon v) :: canonFields fs

end

mutual

/-- Well-formedness of a value that came from a JavaScript object graph:
every object has pairwise distinct keys (JavaScript objects cannot carry
duplicates). -/
def wf : Json → Bool
  | .null => true
  | .bool _ => true
  | .num _ => true
  | .str _ => true
  | .arr es => wfList es
  | .obj fs => decide ((fs.map Prod.fst).Nodup) && wfFields fs

/-- Well-formedness of each array element. -/
def wfList : List Json → Bool
  | [] => true
  | e :: es => wf e && wfList es

/-- Well-formedness of each field value. -/
def wfFields : List (String × Json) → Bool
  | [] => true
  | (_, v) :: fs => wf v && wfFields fs

end

end Json

/-- One filesystem access, for tracking which paths a handler touches. -/
inductive FsOp where
  | check (path : String)
  | read (path : String)
  | write (path : String)
  | scan (path : String)
  | copy (src dst : String)
  | remove (path : String)
deriving DecidableEq

/-- CONFIG_FILE, relative to the server directory (both servers use the same
layout). -/
def configPath : String := "data/config.json"

/-- BACKUP_DIR, relative to the server directory. -/
def backupDir : String := "data/backups"

/-- Path join.  No normalization is modelled: every name joined below either
passes the traversal guard first or is only compared, never resolved. -/
def joinPath (dir file : String) : String := dir ++ "/" ++ file

/-- Timestamp sanitizer `toISOString().replace(/[:.]/g, '-')` (server.js
946, start-server.sh 406). -/
def sanitizeTs (s : String) : String :=
  String.mk (s.toList.map fun c => if c == ':' || c == '.' then '-' else c)

/-! The `Server` namespace models the full Express server, the second
concatenated variant of `server/server.js` (lines 656-1749).  The on-disk
state is the parsed content of `data/config.json` (or `none` when the file is
absent) together with the backup directory as a name-keyed association list,
and every handler additionally reports the list of filesystem operations it
performed, in order. -/

namespace Server

open Json

/-- Durable server state: parsed config file (if present) and the backup
directory, keyed by filename. -/
structure State where
  configFile : Option Json
  backups : List (String × Json)
deriving DecidableEq

/-- Keys of the object `configForHashing` in `generateConfigHash`
(server.js 828-835), in literal insertion order. -/
def hashSourceKeys : List String :=
  ["services", "collapsedCategories", "gridColumns", "theme", "settings",
    "categoryOrder"]

/-- The replacer `Object.keys(configForHashing).sort()` (server.js 837): the
six hash-source keys in ascending lexicographic order. -/
def sortedHashKeys : List String :=
  List.insertionSort (fun a b => strLeJs a b = true) hashSourceKeys

/-- Content hash of a config (`generateConfigHash`, server.js 826-839): build
the six-field object from the config (a field whose value is `undefined` is
skipped by `JSON.stringify`, hence the `filterMap`), serialize it with the
sorted key list as array replacer, and digest.  The sha256-hex step is
modelled by the serialized string itself: the code only ever compares two
digests of this one function, and equal strings have equal digests. -/
def generateConfigHash (config : Json) : String :=
  Json.serialize sortedHashKeys
    (Json.obj (hashSourceKeys.filterMap fun k =>
      (config.lookup k).map fun v => (k, v)))

/-- Optional-chained metadata access `config.metadata?.k`. -/
def metaField (config : Json) (k : String) : Option Json :=
  (config.lookup "metadata").bind fun m => m.lookup k

/-- Decision to back up before a save (`shouldCreateBackup`, server.js
841-867).  `parseMs` models `new Date(isoString).getTime()` and `nowMs`
models `Date.now()`, both in epoch milliseconds; the float comparison
`(now - last) / 60000 < cadence` is equivalent to the integer comparison
used here.  A non-numeric `backupCadenceMinutes` falls back to 60 via `||`. -/
def shouldCreateBackup (parseMs : String → Int) (nowMs : Int) (config : Json) :
    Bool :=
  if !truthy (metaField config "backupEnabled") then false
  else if !truthy (metaField config "lastBackup") then true
  else
    let lastBackupMs : Int :=
      match metaField config "lastBackup" with
      | some (.str s) => parseMs s
      | some (.num n) => n
      | _ => 0
    let cadenceMinutes : Int :=
      match metaField config "backupCadenceMinutes" with
      | some (.num n) => if n = 0 then 60 else n
      | _ => 60
    if nowMs - lastBackupMs < 60000 * cadenceMinutes then false
    else
      match metaField config "configHash" with
      | some (.str h) => generateConfigHash config != h
      | _ => true

/-- One default service entry (server.js 734-803). -/
def svc (name url icon category description : String) : Json :=
  .obj [("name", .str name), ("url", .str url), ("icon", .str icon),
    ("category", .str category), ("description", .str description)]

/-- Fields of `defaultConfig` (server.js 732-823).  `t0` is the
`new Date().toISOString()` evaluated when the server started.  Note the
literal has no `categoryOrder` and no `colors` key. -/
def defaultFields (t0 : String) : List (String × Json) :=
  [("services", .arr
      [svc "Jellyfin" "http://jellyfin.local:8096" "fas fa-tv" "Media"
          "Media Server & Streaming",
        svc "Emby" "http://emby.local:8096" "fas fa-film" "Media"
          "Personal Media Server",
        svc "Sonarr" "http://sonarr.local:8989" "fas fa-tv"
          "Media Management" "TV Series Management",
        svc "Radarr" "http://radarr.local:7878" "fas fa-film"
          "Media Management" "Movie Management",
        svc "Prowlarr" "http://prowlarr.local:9696" "fas fa-search"
          "Media Management" "Indexer Manager",
        svc "qBittorrent" "http://qbittorrent.local:8080" "fas fa-download"
          "Downloads" "BitTorrent Client",
        svc "Portainer" "http://portainer.local:9000" "fab fa-docker"
          "Infrastructure" "Docker Management",
        svc "Pi-hole" "http://pihole.local/admin" "fas fa-shield-alt"
          "Infrastructure" "Network Ad Blocker",
        svc "Home Assistant" "http://homeassistant.local:8123" "fas fa-home"
          "Home Automation" "Smart Home Hub",
        svc "Grafana" "http://grafana.local:3000" "fas fa-chart-line"
          "Monitoring" "Analytics & Monitoring"]),
    ("collapsedCategories", .arr []),
    ("gridColumns", .num 4),
    ("theme", .str "dark"),
    ("settings", .obj
      [("weatherApiKey", .str ""), ("timezone", .str "UTC"),
        ("customCSS", .str ""), ("autoSync", .bool true),
        ("syncInterval", .num 30000)]),
    ("metadata", .obj
      [("version", .str "1.0.0"), ("lastModified", .str t0),
        ("backupEnabled", .bool true), ("lastBackup", .null),
        ("backupCadenceMinutes", .num 60), ("configHash", .null)])]

/-- The default configuration document. -/
def defaultConfig (t0 : String) : Json := .obj (defaultFields t0)

/-- Load the config (`loadConfig`, server.js 869-880): parse the file if it
exists and shallow-merge it over the default, otherwise return the default.
The store holds already-parsed values, so the corrupt-file catch branch
(which also returns the default) is not reachable here. -/
def loadConfig (t0 : String) (st : State) : Json × List FsOp :=
  match st.configFile with
  | some config =>
    (.obj (mergeFields (defaultFields t0) config.fieldsOf),
      [.check configPath, .read configPath])
  | none => (defaultConfig t0, [.check configPath])

/-- Backup filename for a given creation instant (server.js 946-947). -/
def backupFilename (nowIso : String) : String :=
  "config-backup-" ++ sanitizeTs nowIso ++ ".json"

/-- Retention filter `file.startsWith('config-backup-')` (server.js 957). -/
def isBackupName (name : String) : Bool := strStartsWith name "config-backup-"

/-- Create a backup of the current on-disk config (`createBackup`, server.js
923-973): refuse when the file is absent or its `services` is not an array;
otherwise copy it into the backup directory under a timestamped name, then
prune so that only the 10 lexicographically greatest `config-backup-` names
survive (`.sort().reverse()`, delete from index 10 on).  Returns the new
filename, or `none` on refusal. -/
def createBackup (nowIso : String) (st : State) :
    Option String × State × List FsOp :=
  match st.configFile with
  | none => (none, st, [.check configPath])
  | some config =>
    if !(truthy (some config) && truthy (config.lookup "services") &&
        isArr (config.lookup "services")) then
      (none, st, [.check configPath, .read configPath])
    else
      let name := backupFilename nowIso
      let backups1 := setKey st.backups name config
      let sortedDesc :=
        (List.insertionSort (fun a b => strLeJs a b = true)
          ((backups1.map Prod.fst).filter isBackupName)).reverse
      let toRemove := sortedDesc.drop 10
      let backups2 := backups1.filter fun p => !(toRemove.contains p.1)
      (some name, { st with backups := backups2 },
        [.check configPath, .read configPath,
            .copy configPath (joinPath backupDir name), .scan backupDir] ++
          toRemove.map fun n => .remove (joinPath backupDir n))

/-- The metadata restamping of `saveConfig` (server.js 903-908):
`config.metadata = {...config.metadata, lastModified: now, configHash: h}`. -/
def stampMeta (config : Json) (nowIso newHash : String) : Json :=
  .obj (setKey config.fieldsOf "metadata"
    (.obj (setKey
      (setKey (fieldsOfOpt (config.lookup "metadata")) "lastModified"
        (.str nowIso))
      "configHash" (.str newHash))))

/-- The conditional `config.metadata.lastBackup = now` of `saveConfig`
(server.js 910-913), applied after `stampMeta` so `metadata` exists. -/
def stampLastBackup (config : Json) (nowIso : String) : Json :=
  .obj (setKey config.fieldsOf "metadata"
    (.obj (setKey (fieldsOfOpt (config.lookup "metadata")) "lastBackup"
      (.str nowIso))))

/-- The document the conditional-backup policy is evaluated on (server.js
898 and 911): the existing on-disk document with its `configHash` replaced
by the hash of the incoming one. -/
def backupCheckDoc (existing : Json) (newHash : String) : Json :=
  .obj (setKey existing.fieldsOf "metadata"
    (.obj (setKey (fieldsOfOpt (existing.lookup "metadata")) "configHash"
      (.str newHash))))

/-- Save a config (`saveConfig`, server.js 882-921): hash the incoming
document, read the existing file, run the conditional-backup policy against
the existing document with its `configHash` replaced by the new hash, create
a backup of the previous state if the policy fires, restamp
`metadata.lastModified` and `metadata.configHash` (plus `metadata.lastBackup`
when a backup was made), and write.  The policy condition is evaluated twice
in the source with identical inputs, hence once here. -/
def saveConfig (parseMs : String → Int) (nowIso : String) (nowMs : Int)
    (config : Json) (st : State) : Bool × State × List FsOp :=
  let newHash := generateConfigHash config
  match st.configFile with
  | none =>
    (true, { st with configFile := some (stampMeta config nowIso newHash) },
      [.check configPath, .write configPath])
  | some existing =>
    let need := shouldCreateBackup parseMs nowMs (backupCheckDoc existing newHash)
    let backupStep :=
      if need then createBackup nowIso st else (none, st, [])
    let config1 := stampMeta config nowIso newHash
    let config2 :=
      if need then stampLastBackup config1 nowIso else config1
    (true, { backupStep.2.1 with configFile := some config2 },
      [.check configPath, .read configPath] ++ backupStep.2.2 ++
        [.write configPath])

/-- Per-service validation (`validateService`, server.js 975-999), returning
the error messages in source order. -/
def validateService (service : Json) : List String :=
  let strOk : Option Json → Bool := fun v =>
    match v with
    | some (.str s) => s ≠ ""
    | _ => false
  let optBad : Option Json → Bool := fun v =>
    truthy v && !(match v with | some (.str _) => true | _ => false)
  (if strOk (service.lookup "name") then [] else
    ["Service name is required and must be a string"]) ++
  (if strOk (service.lookup "url") then [] else
    ["Service URL is required and must be a string"]) ++
  (if strOk (service.lookup "category") then [] else
    ["Service category is required and must be a string"]) ++
  (if optBad (service.lookup "icon") then
    ["Service icon must be a string"] else []) ++
  (if optBad (service.lookup "description") then
    ["Service description must be a string"] else [])

/-- First invalid service, with its index (the validation loops of server.js
1203-1212 and 1568-1577 return on the first index with errors). -/
def findInvalid : List Json → Nat → Option (Nat × List String)
  | [], _ => none
  | s :: rest, i =>
    let errs := validateService s
    if errs ≠ [] then some (i, errs) else findInvalid rest (i + 1)

/-- Error body for an invalid service at an index. -/
def invalidServiceMsg (i : Nat) (errs : List String) : String :=
  "Invalid service at index " ++ toString i ++ ": " ++
    String.intercalate ", " errs

/-- Response of `POST /api/config`, tagged by HTTP status. -/
inductive SaveResponse where
  | badRequest (error : String)
  | ok
  | failed
deriving DecidableEq

/-- HTTP status of a save response (200 success, 400 validation, 500). -/
def SaveResponse.status : SaveResponse → Nat
  | .badRequest _ => 400
  | .ok => 200
  | .failed => 500

/-- The `POST /api/config` handler (server.js 1189-1236): reject with 400
when `services` is missing or not an array, then validate each service, then
save. -/
def postConfig (parseMs : String → Int) (nowIso : String) (nowMs : Int)
    (body : Json) (st : State) : SaveResponse × State × List FsOp :=
  match body.lookup "services" with
  | some (.arr svs) =>
    match findInvalid svs 0 with
    | some (i, errs) => (.badRequest (invalidServiceMsg i errs), st, [])
    | none =>
      let saved := saveConfig parseMs nowIso nowMs body st
      (if saved.1 then .ok else .failed, saved.2.1, saved.2.2)
  | _ =>
    (.badRequest "Invalid configuration: services must be an array", st, [])

/-- The traversal guard of server.js 1523 (and 1455): the filename contains
`..`, `/`, or a backslash. -/
def hasTraversal (filename : String) : Bool :=
  jsIncludes filename ".." || jsIncludes filename "/" ||
    jsIncludes filename "\\"

/-- Response of `POST /api/restore/:filename`, tagged by HTTP status. -/
inductive RestoreResponse where
  | invalidFilename
  | notFound
  | invalidBackup (error : String)
  | restored (restoredFrom : String) (servicesCount : Nat)
      (currentBackup : Option String)
  | failed
deriving DecidableEq

/-- HTTP status of a restore response (400 traversal and invalid backup, 404
missing, 200 success, 500). -/
def RestoreResponse.status : RestoreResponse → Nat
  | .invalidFilename => 400
  | .notFound => 404
  | .invalidBackup _ => 400
  | .restored _ _ _ => 200
  | .failed => 500

/-- The `POST /api/restore/:filename` handler (server.js 1517-1621): guard
against traversal before touching the filesystem, 404 when the backup is
absent, snapshot the current config as a safety backup, validate the backup
payload, merge it over the default config restamping
`lastModified`, `restoredFrom` and `restoredAt`, and save the result. -/
def restore (parseMs : String → Int) (t0 nowIso : String) (nowMs : Int)
    (filename : String) (st : State) :
    RestoreResponse × State × List FsOp :=
  let backupFile := joinPath backupDir filename
  if hasTraversal filename then (.invalidFilename, st, [])
  else
    match lookupField st.backups filename with
    | none => (.notFound, st, [.check backupFile])
    | some backupConfig =>
      let safety := createBackup nowIso st
      match backupConfig.lookup "services" with
      | some (.arr svs) =>
        match findInvalid svs 0 with
        | some (i, errs) =>
          (.invalidBackup (invalidServiceMsg i errs), safety.2.1,
            [.check backupFile] ++ safety.2.2 ++ [.read backupFile])
        | none =>
          let restoredConfig : Json :=
            .obj (setKey (mergeFields (defaultFields t0) backupConfig.fieldsOf)
              "metadata"
              (.obj (setKey (setKey (setKey
                (mergeFields
                  (fieldsOfOpt ((defaultConfig t0).lookup "metadata"))
                  (fieldsOfOpt (backupConfig.lookup "metadata")))
                "lastModified" (.str nowIso))
                "restoredFrom" (.str filename))
                "restoredAt" (.str nowIso))))
          let saved := saveConfig parseMs nowIso nowMs restoredConfig safety.2.1
          ((if saved.1 then .restored filename svs.length safety.1
            else .failed), saved.2.1,
            [.check backupFile] ++ safety.2.2 ++ [.read backupFile] ++
              saved.2.2)
      | _ =>
        (.invalidBackup "Invalid backup: missing or invalid services array",
          safety.2.1, [.check backupFile] ++ safety.2.2 ++ [.read backupFile])

end Server

/-! The `Variant` namespace models the simple server embedded in
`start-server.sh`.  Its two embedded copies (lines 29-250 and 251-645) have
identical config, change-detection and backup endpoints; the icon proxy
(lines 452-558) exists only in the second copy.  The config file always
exists after startup, and the module variable `lastModified` always equals
the file's `mtimeMs`, so the state carries the parsed document, its mtime,
and the backup directory. -/

namespace Variant

open Json

/-- Durable state of the simple server. -/
structure VState where
  configFile : Json
  mtimeMs : Int
  backups : List (String × Json)
deriving DecidableEq

/-- Response of `PUT /api/config` (success is always reported with the
post-write marker). -/
structure PutResponse where
  success : Bool
  lastModified : Int
deriving DecidableEq

/-- The `PUT /api/config` handler (start-server.sh 351-366, identically
121-136): spread the request body, restamp `metadata.lastModified`, write the
file with no validation whatsoever, and report the new mtime. -/
def putConfig (nowIso : String) (nowMs : Int) (body : Json) (st : VState) :
    PutResponse × VState :=
  let config : Json :=
    .obj (setKey body.fieldsOf "metadata"
      (.obj (setKey (fieldsOfOpt (body.lookup "metadata")) "lastModified"
        (.str nowIso))))
  (⟨true, nowMs⟩, { st with configFile := config, mtimeMs := nowMs })

/-- The `GET /api/config` handler (start-server.sh 337-348, identically
107-118): parsed document plus its mtime marker. -/
def getConfig (st : VState) : Json × Int := (st.configFile, st.mtimeMs)

/-- Response of `GET /api/config/check`. -/
structure CheckResponse where
  changed : Bool
  lastModified : Int
deriving DecidableEq

/-- The `GET /api/config/check` handler (start-server.sh 369-378,
identically 139-148): `changed = stats.mtimeMs > (parseFloat(since) || 0)`.
An absent or unparsable `since` (`none` here) coerces to 0. -/
def checkConfig (since : Option Int) (st : VState) : CheckResponse :=
  let clientLastModified := since.getD 0
  ⟨st.mtimeMs > clientLastModified, st.mtimeMs⟩

/-- Backup-name sanitizer `replace(/[^a-zA-Z0-9-_]/g, '_')`
(start-server.sh 408). -/
def sanitizeName (s : String) : String :=
  String.mk (s.toList.map fun c =>
    if c.isAlphanum || c == '-' || c == '_' then c else '_')

/-- The `POST /api/backups` handler (start-server.sh 404-415): derive a
filename from the supplied name (or a timestamp when the name is absent or
falsy), write the current config under it, and return it.  No retention
pruning of any kind is performed. -/
def createBackup (nowIso : String) (name : Option String) (st : VState) :
    String × VState :=
  let base :=
    match name with
    | some s => if s == "" then "backup-" ++ sanitizeTs nowIso else s
    | none => "backup-" ++ sanitizeTs nowIso
  let filename := sanitizeName base ++ ".json"
  (filename, { st with backups := setKey st.backups filename st.configFile })

/-- Response of `POST /api/backups/restore/:filename`. -/
inductive VRestoreResponse where
  | notFound
  | ok
deriving DecidableEq

/-- HTTP status of a variant restore response. -/
def VRestoreResponse.status : VRestoreResponse → Nat
  | .notFound => 404
  | .ok => 200

/-- The `POST /api/backups/restore/:filename` handler (start-server.sh
418-431): no traversal guard of any kind; the joined path is probed with
`existsSync`, the backup bytes are copied over the config file verbatim (no
merge, no metadata restamp, no safety snapshot), and the marker is
updated. -/
def restore (nowMs : Int) (filename : String) (st : VState) :
    VRestoreResponse × VState × List FsOp :=
  let backupPath := joinPath backupDir filename
  match lookupField st.backups filename with
  | none => (.notFound, st, [.check backupPath])
  | some backup =>
    (.ok, { st with configFile := backup, mtimeMs := nowMs },
      [.check backupPath, .read backupPath, .write configPath])

/-- What the network would do for a fetch, absent any abort: never answer,
fail after a delay, or answer after a delay with a status (`ok`) and a
content type. -/
inductive NetBehavior where
  | hang
  | failAfter (ms : Int)
  | completeAfter (ms : Int) (ok : Bool) (contentType : String)
deriving DecidableEq

/-- Observable outcome of the fetch at start-server.sh 489-511. -/
inductive FetchResult where
  | aborted
  | connFailed
  | response (ok : Bool) (contentType : String)
deriving DecidableEq

/-- Fetch under the 10-second AbortController (start-server.sh 489-490):
whatever the network does, the caller observes a result after at most
10000 ms, the abort error counting as a fetch error. -/
def fetchWithTimeout : NetBehavior → Int × FetchResult
  | .hang => (10000, .aborted)
  | .failAfter ms => if 10000 < ms then (10000, .aborted) else (ms, .connFailed)
  | .completeAfter ms ok ct =>
    if 10000 < ms then (10000, .aborted) else (ms, .response ok ct)

/-- A proxy request: the raw `url` query parameter, whether `new URL(url)`
succeeds, the (lower-cased) extension of the parsed URL's pathname, and the
md5 hex digest of the url string used as cache key. -/
structure IconRequest where
  url : Option String
  urlValid : Bool
  pathExt : String
  urlHash : String

/-- Response of `GET /api/icons/proxy`, tagged by HTTP status. -/
inductive ProxyResponse where
  | missingUrl
  | invalidUrl
  | cachedHit (localUrl : String)
  | fallback (url : String)
  | saved (localUrl : String)
deriving DecidableEq

/-- HTTP status of a proxy response: the two parameter rejections are 400,
everything else — including every network failure — is a plain 200. -/
def ProxyResponse.status : ProxyResponse → Nat
  | .missingUrl => 400
  | .invalidUrl => 400
  | _ => 200

/-- Extensions accepted from the URL path (start-server.sh 473). -/
def knownExts : List String :=
  [".png", ".jpg", ".jpeg", ".gif", ".svg", ".ico", ".webp"]

/-- Extension correction from the response content type (start-server.sh
522-534). -/
def extFromContentType (ct ext : String) : String :=
  if jsIncludes ct "svg" then ".svg"
  else if jsIncludes ct "jpeg" || jsIncludes ct "jpg" then ".jpg"
  else if jsIncludes ct "gif" then ".gif"
  else if jsIncludes ct "webp" then ".webp"
  else if jsIncludes ct "ico" || jsIncludes ct "x-icon" then ".ico"
  else ext

/-- The `GET /api/icons/proxy` handler (start-server.sh 453-558): parameter
checks, cache probe keyed by url-hash plus extension, then a bounded fetch;
any fetch error or non-ok status answers 200 with the original url as
fallback (`{cached: false, url, fallback: true}`); a success is written to
the cache.  Returns the response, the new cache contents, and the elapsed
fetch time in milliseconds (0 when no fetch was issued). -/
def iconProxy (req : IconRequest) (net : NetBehavior) (cache : List String) :
    ProxyResponse × List String × Int :=
  match req.url with
  | none => (.missingUrl, cache, 0)
  | some u =>
    if u == "" then (.missingUrl, cache, 0)
    else if !req.urlValid then (.invalidUrl, cache, 0)
    else
      let ext0 :=
        if req.pathExt == "" || !(knownExts.contains req.pathExt) then ".png"
        else req.pathExt
      let cachedFilename := req.urlHash ++ ext0
      if cache.contains cachedFilename then
        (.cachedHit ("/icons/" ++ cachedFilename), cache, 0)
      else
        let fetched := fetchWithTimeout net
        match fetched.2 with
        | .aborted => (.fallback u, cache, fetched.1)
        | .connFailed => (.fallback u, cache, fetched.1)
        | .response ok ct =>
          if !ok then (.fallback u, cache, fetched.1)
          else
            let finalFilename := req.urlHash ++ extFromContentType ct ext0
            (.saved ("/icons/" ++ finalFilename), cache ++ [finalFilename],
              fetched.1)

end Variant

/-! Small concrete documents used to evaluate the theorems at specific
inputs. -/

/-- A small valid config document. -/
def exampleDocA : Json :=
  .obj [("services", .arr
      [.obj [("name", .str "Grafana"), ("url", .str "http://grafana.local:3000"),
        ("icon", .str "fas fa-chart-line"), ("category", .str "Monitoring"),
        ("description", .str "Analytics")]]),
    ("collapsedCategories", .arr []),
    ("gridColumns", .num 4),
    ("theme", .str "dark"),
    ("settings", .obj [("timezone", .str "UTC"), ("autoSync", .bool true)]),
    ("categoryOrder", .arr [.str "Monitoring"]),
    ("metadata", .obj [("version", .str "1.0.0"),
      ("lastModified", .str "2025-01-01T00:00:00.000Z"),
      ("backupEnabled", .bool true),
      ("lastBackup", .str "2025-01-01T00:00:00.000Z"),
      ("backupCadenceMinutes", .num 60), ("configHash", .str "stale")])]

/-- The document of `exampleDocA` with object keys reinserted in a different
order at the top level, inside the service entry, inside `settings`, and
inside `metadata`. -/
def exampleDocB : Json :=
  .obj [("metadata", .obj [("configHash", .str "stale"),
      ("backupCadenceMinutes", .num 60),
      ("lastBackup", .str "2025-01-01T00:00:00.000Z"),
      ("backupEnabled", .bool true),
      ("lastModified", .str "2025-01-01T00:00:00.000Z"),
      ("version", .str "1.0.0")]),
    ("categoryOrder", .arr [.str "Monitoring"]),
    ("settings", .obj [("autoSync", .bool true), ("timezone", .str "UTC")]),
    ("theme", .str "dark"),
    ("gridColumns", .num 4),
    ("collapsedCategories", .arr []),
    ("services", .arr
      [.obj [("description", .str "Analytics"), ("category", .str "Monitoring"),
        ("icon", .str "fas fa-chart-line"),
        ("url", .str "http://grafana.local:3000"), ("name", .str "Grafana")]])]

/-- A document agreeing with `exampleDocA` on the service count and on the
top-level values of `theme`, `gridColumns`, `collapsedCategories` and
`categoryOrder`, but with a completely different service and different
settings values. -/
def exampleDocC : Json :=
  .obj [("services", .arr
      [.obj [("name", .str "Jellyfin"), ("url", .str "http://jellyfin.local:8096"),
        ("icon", .str "fas fa-tv"), ("category", .str "Media"),
        ("description", .str "Media Server")]]),
    ("collapsedCategories", .arr []),
    ("gridColumns", .num 4),
    ("theme", .str "dark"),
    ("settings", .obj [("timezone", .str "Europe/Berlin"),
      ("autoSync", .bool false), ("customCSS", .str "body \x7b color: red \x7d")]),
    ("categoryOrder", .arr [.str "Monitoring"])]

/-! Supporting lemmas about the association-list primitives. -/

namespace Json

theorem lookupField_setKey_self (l : List (String × Json)) (k : String)
    (v : Json) : lookupField (setKey l k v) k = some v := by
  induction l with
  | nil => simp [setKey, lookupField]
  | cons p rest ih =>
    obtain ⟨k', v'⟩ := p
    by_cases h : k' = k <;> simp [setKey, lookupField, h, ih]

theorem lookupField_setKey_ne (l : List (String × Json)) (k k' : String)
    (v : Json) (h : k ≠ k') :
    lookupField (setKey l k v) k' = lookupField l k' := by
  induction l with
  | nil => simp [setKey, lookupField, h]
  | cons p rest ih =>
    obtain ⟨k'', v''⟩ := p
    rcases eq_or_ne k'' k with h2 | h2
    · subst h2
      simp [setKey, lookupField, h]
    · rcases eq_or_ne k'' k' with h3 | h3
      · subst h3
        simp [setKey, lookupField, h2]
      · simp [setKey, lookupField, h2, h3, ih]

theorem lookupField_eq_none_iff (l : List (String × Json)) (k : String) :
    lookupField l k = none ↔ k ∉ l.map Prod.fst := by
  induction l with
  | nil => simp [lookupField]
  | cons p rest ih =>
    obtain ⟨k', v'⟩ := p
    by_cases h : k' = k <;> simp [lookupField, h, ih]
    tauto

theorem keys_setKey (l : List (String × Json)) (k : String) (v : Json) :
    (setKey l k v).map Prod.fst =
      if k ∈ l.map Prod.fst then l.map Prod.fst else l.map Prod.fst ++ [k] := by
  induction l with
  | nil => simp [setKey]
  | cons p rest ih =>
    obtain ⟨k', v'⟩ := p
    by_cases h : k' = k
    · subst h
      simp [setKey]
    · have hne : ¬k = k' := fun hh => h hh.symm
      by_cases hm : k ∈ rest.map Prod.fst <;> simp [setKey, h, hne, hm, ih]

theorem nodup_keys_setKey (l : List (String × Json)) (k : String) (v : Json)
    (h : (l.map Prod.fst).Nodup) : ((setKey l k v).map Prod.fst).Nodup := by
  rw [keys_setKey]
  split
  · exact h
  · next hk => simp [List.nodup_append, h, hk]

theorem setKey_of_lookup (l : List (String × Json)) (k : String) (v : Json)
    (h : lookupField l k = some v) : setKey l k v = l := by
  induction l with
  | nil => simp [lookupField] at h
  | cons p rest ih =>
    obtain ⟨k', v'⟩ := p
    by_cases h2 : k' = k
    · subst h2
      simp [lookupField] at h
      simp [setKey, h]
    · simp [lookupField, h2] at h
      simp [setKey, h2, ih h]

theorem mem_setKey_self (l : List (String × Json)) (k : String) (v : Json) :
    (k, v) ∈ setKey l k v := by
  induction l with
  | nil => simp [setKey]
  | cons p rest ih =>
    obtain ⟨k', v'⟩ := p
    by_cases h : k' = k <;> simp [setKey, h, ih]

theorem mergeFields_cons (a : List (String × Json)) (k : String) (v : Json)
    (rest : List (String × Json)) :
    mergeFields a ((k, v) :: rest) = mergeFields (setKey a k v) rest := rfl

theorem lookupField_mergeFields_of_none (a b : List (String × Json))
    (k : String) (h : lookupField b k = none) :
    lookupField (mergeFields a b) k = lookupField a k := by
  induction b generalizing a with
  | nil => rfl
  | cons p rest ih =>
    obtain ⟨k', v'⟩ := p
    by_cases h2 : k' = k
    · simp [lookupField, h2] at h
    · simp only [lookupField, h2, if_false] at h
      rw [mergeFields_cons, ih _ h, lookupField_setKey_ne _ _ _ _ h2]

theorem lookupField_mergeFields_of_some (a b : List (String × Json))
    (k : String) (v : Json) (hb : (b.map Prod.fst).Nodup)
    (h : lookupField b k = some v) :
    lookupField (mergeFields a b) k = some v := by
  induction b generalizing a with
  | nil => simp [lookupField] at h
  | cons p rest ih =>
    obtain ⟨k', v'⟩ := p
    simp only [List.map_cons, List.nodup_cons] at hb
    rcases eq_or_ne k' k with h2 | h2
    · subst h2
      simp [lookupField] at h
      have hrest : lookupField rest k' = none :=
        (lookupField_eq_none_iff rest k').mpr hb.1
      rw [mergeFields_cons, lookupField_mergeFields_of_none _ _ _ hrest,
        lookupField_setKey_self, h]
    · simp [lookupField, h2] at h
      rw [mergeFields_cons, ih _ hb.2 h]

theorem keys_filter (l : List (String × Json)) (q : String → Bool) :
    ((l.filter fun p => q p.1).map Prod.fst) = (l.map Prod.fst).filter q := by
  induction l with
  | nil => rfl
  | cons p rest ih =>
    obtain ⟨k, v⟩ := p
    by_cases h : q k <;> simp [List.filter_cons, h, ih]

theorem lookupField_perm (l l' : List (String × Json)) (h : l.Perm l') :
    (l.map Prod.fst).Nodup → ∀ k, lookupField l k = lookupField l' k := by
  induction h with
  | nil => intro _ k; rfl
  | cons x h ih =>
    intro hn k
    obtain ⟨kx, vx⟩ := x
    simp only [List.map_cons, List.nodup_cons] at hn
    by_cases h2 : kx = k <;> simp [lookupField, h2, ih hn.2 k]
  | swap x y l =>
    intro hn k
    obtain ⟨kx, vx⟩ := x
    obtain ⟨ky, vy⟩ := y
    simp only [List.map_cons, List.nodup_cons, List.mem_cons] at hn
    have hxy : ky ≠ kx := fun hh => hn.1 (Or.inl hh)
    rcases eq_or_ne kx k with h2 | h2 <;> rcases eq_or_ne ky k with h3 | h3
    · exact absurd (h3.trans h2.symm) hxy
    · simp [lookupField, h2, h3]
    · simp [lookupField, h2, h3]
    · simp [lookupField, h2, h3]
  | trans h₁ h₂ ih₁ ih₂ =>
    intro hn k
    rw [ih₁ hn k, ih₂ (((h₁.map Prod.fst).nodup_iff).mp hn) k]

theorem lookupStr_renderFields (K : List String) (fs : List (String × Json))
    (k : String) :
    lookupStr (renderFields K fs) k = (lookupField fs k).map (serialize K) := by
  induction fs with
  | nil => rfl
  | cons p rest ih =>
    obtain ⟨k', v'⟩ := p
    by_cases h : k' = k <;> simp [renderFields, lookupStr, lookupField, h, ih]

theorem selectFields_cons (k : String) (ks : List String)
    (r : List (String × String)) :
    selectFields (k :: ks) r =
      match lookupStr r k with
      | some sv => (quoteString k ++ ":" ++ sv) :: selectFields ks r
      | none => selectFields ks r := by
  simp only [selectFields, List.filterMap_cons]
  cases lookupStr r k <;> simp

theorem selectFields_congr (K ks : List String) (fs gs : List (String × Json))
    (h : ∀ k ∈ ks,
      (lookupField fs k).map (serialize K) =
        (lookupField gs k).map (serialize K)) :
    selectFields ks (renderFields K fs) = selectFields ks (renderFields K gs) := by
  induction ks with
  | nil => rfl
  | cons k ks ih =>
    have hk := h k (List.mem_cons_self _ _)
    have ih2 := ih fun k' hk' => h k' (List.mem_cons_of_mem _ hk')
    rw [selectFields_cons, selectFields_cons, lookupStr_renderFields,
      lookupStr_renderFields, hk]
    cases (lookupField gs k).map (serialize K) <;> simp [ih2]

theorem serialize_obj_congr (K : List String) (fs gs : List (String × Json))
    (h : ∀ k ∈ K,
      (lookupField fs k).map (serialize K) =
        (lookupField gs k).map (serialize K)) :
    serialize K (.obj fs) = serialize K (.obj gs) := by
  simp only [serialize]
  rw [selectFields_congr K K fs gs h]

theorem sizeOf_lookupField (fs : List (String × Json)) (k : String) (v : Json)
    (h : lookupField fs k = some v) : sizeOf v < sizeOf fs := by
  induction fs with
  | nil => simp [lookupField] at h
  | cons p rest ih =>
    obtain ⟨k', v'⟩ := p
    rcases eq_or_ne k' k with h2 | h2
    · simp [lookupField, h2] at h
      subst h
      simp
      omega
    · simp [lookupField, h2] at h
      have := ih h
      simp
      omega

theorem keys_canonFields (fs : List (String × Json)) :
    (canonFields fs).map Prod.fst = fs.map Prod.fst := by
  induction fs with
  | nil => rfl
  | cons p rest ih =>
    obtain ⟨k, v⟩ := p
    simp [canonFields, ih]

theorem lookupField_canonFields (fs : List (String × Json)) (k : String) :
    lookupField (canonFields fs) k = (lookupField fs k).map canon := by
  induction fs with
  | nil => rfl
  | cons p rest ih =>
    obtain ⟨k', v'⟩ := p
    rcases eq_or_ne k' k with h | h <;> simp [canonFields, lookupField, h, ih]

theorem lookupField_canon_sorted (fs : List (String × Json))
    (hn : (fs.map Prod.fst).Nodup) (k : String) :
    lookupField (sortFields (canonFields fs)) k =
      (lookupField fs k).map canon := by
  have hperm : (sortFields (canonFields fs)).Perm (canonFields fs) :=
    List.perm_insertionSort _ _
  have hnodup : ((sortFields (canonFields fs)).map Prod.fst).Nodup := by
    refine ((hperm.map Prod.fst).nodup_iff).mpr ?_
    rw [keys_canonFields]
    exact hn
  rw [lookupField_perm _ _ hperm hnodup k, lookupField_canonFields]

theorem wfFields_lookup (fs : List (String × Json)) (k : String) (v : Json)
    (hw : wfFields fs = true) (h : lookupField fs k = some v) : wf v = true := by
  induction fs with
  | nil => simp [lookupField] at h
  | cons p rest ih =>
    obtain ⟨k', v'⟩ := p
    simp only [wfFields, Bool.and_eq_true] at hw
    rcases eq_or_ne k' k with h2 | h2
    · simp [lookupField, h2] at h
      exact h ▸ hw.1
    · simp [lookupField, h2] at h
      exact ih hw.2 h

theorem wf_lookup (j : Json) (k : String) (v : Json) (hw : wf j = true)
    (h : j.lookup k = some v) : wf v = true := by
  cases j <;> simp [Json.lookup] at h
  case obj fs =>
    simp only [wf, Bool.and_eq_true] at hw
    exact wfFields_lookup fs k v hw.2 h

theorem serialize_canon_aux :
    ∀ (n : Nat) (j : Json), sizeOf j ≤ n → wf j = true →
      ∀ K, serialize K (canon j) = serialize K j := by
  intro n
  induction n with
  | zero =>
    intro j h
    exfalso
    cases j <;> simp at h
  | succ n ih =>
    intro j h hwf K
    cases j with
    | null => rfl
    | bool b => rfl
    | num m => rfl
    | str s => rfl
    | arr es =>
      have hes : sizeOf es ≤ n := by simp at h; omega
      have hl : ∀ (xs : List Json), sizeOf xs ≤ n → wfList xs = true →
          serializeList K (canonList xs) = serializeList K xs := by
        intro xs
        induction xs with
        | nil => intro _ _; rfl
        | cons e rest ihl =>
          intro hs hw
          simp only [wfList, Bool.and_eq_true] at hw
          have h1 : sizeOf e ≤ n := by simp at hs; omega
          have h2 : sizeOf rest ≤ n := by simp at hs; omega
          simp only [canonList, serializeList, ih e h1 hw.1 K, ihl h2 hw.2]
      simp only [canon, serialize]
      rw [hl es hes (by simpa [wf] using hwf)]
    | obj fs =>
      have hfs : sizeOf fs ≤ n := by simp at h; omega
      simp only [wf, Bool.and_eq_true, decide_eq_true_eq] at hwf
      simp only [canon]
      apply serialize_obj_congr
      intro k _
      rw [lookupField_canon_sorted fs hwf.1 k]
      cases hv : lookupField fs k with
      | none => rfl
      | some v =>
        have hsv : sizeOf v ≤ n :=
          Nat.le_of_lt (Nat.lt_of_lt_of_le (sizeOf_lookupField fs k v hv) hfs)
        have hser : serialize K (canon v) = serialize K v :=
          ih v hsv (wfFields_lookup fs k v hwf.2 hv) K
        simp [hser]

theorem serialize_canon (j : Json) (h : wf j = true) (K : List String) :
    serialize K (canon j) = serialize K j :=
  serialize_canon_aux (sizeOf j) j (Nat.le_refl _) h K

theorem lookup_canon (j : Json) (h : wf j = true) (k : String) :
    (canon j).lookup k = (j.lookup k).map canon := by
  cases j <;> simp [canon, Json.lookup]
  case obj fs =>
    simp only [wf, Bool.and_eq_true, decide_eq_true_eq] at h
    exact lookupField_canon_sorted fs h.1 k

theorem selectFields_empty (K ks : List String) (fs : List (String × Json))
    (h : ∀ k ∈ ks, lookupField fs k = none) :
    selectFields ks (renderFields K fs) = [] := by
  induction ks with
  | nil => rfl
  | cons k ks ih =>
    rw [selectFields_cons, lookupStr_renderFields, h k (List.mem_cons_self _ _)]
    exact ih fun k' hk' => h k' (List.mem_cons_of_mem _ hk')

theorem serialize_obj_dropped (K : List String) (fs : List (String × Json))
    (h : ∀ k ∈ K, lookupField fs k = none) :
    serialize K (.obj fs) = "\x7b\x7d" := by
  simp only [serialize, selectFields_empty K K fs h]
  rfl

theorem serializeList_dropped (K : List String) :
    ∀ (es es' : List Json), es.length = es'.length →
      (∀ e ∈ es, ∃ fs, e = Json.obj fs ∧ ∀ k ∈ K, lookupField fs k = none) →
      (∀ e ∈ es', ∃ fs, e = Json.obj fs ∧ ∀ k ∈ K, lookupField fs k = none) →
      serializeList K es = serializeList K es' := by
  intro es
  induction es with
  | nil =>
    intro es' hlen _ _
    cases es' with
    | nil => rfl
    | cons _ _ => simp at hlen
  | cons e rest ih =>
    intro es' hlen hmem hmem'
    cases es' with
    | nil => simp at hlen
    | cons e' rest' =>
      obtain ⟨fs, he, hfs⟩ := hmem e (List.mem_cons_self _ _)
      obtain ⟨fs', he', hfs'⟩ := hmem' e' (List.mem_cons_self _ _)
      simp only [serializeList]
      rw [he, he', serialize_obj_dropped K fs hfs,
        serialize_obj_dropped K fs' hfs']
      rw [ih rest' (by simpa using hlen)
        (fun x hx => hmem x (List.mem_cons_of_mem _ hx))
        (fun x hx => hmem' x (List.mem_cons_of_mem _ hx))]

theorem lookupField_filterMap_keyed (keys : List String)
    (f : String → Option Json) (k : String) :
    lookupField (keys.filterMap fun k0 => (f k0).map fun v => (k0, v)) k =
      if k ∈ keys then f k else none := by
  induction keys with
  | nil => simp [lookupField]
  | cons k0 rest ih =>
    cases hf : f k0 with
    | none =>
      rcases eq_or_ne k0 k with h | h
      · subst h
        by_cases hm : k0 ∈ rest <;> simp [List.filterMap_cons, hf, ih, hm]
      · simp [List.filterMap_cons, hf, ih, h, Ne.symm h]
    | some v =>
      rcases eq_or_ne k0 k with h | h
      · subst h
        simp [List.filterMap_cons, hf, lookupField]
      · simp [List.filterMap_cons, hf, lookupField, h, Ne.symm h, ih]

theorem canonFields_filterMap_keyed (keys : List String)
    (f : String → Option Json) :
    canonFields (keys.filterMap fun k0 => (f k0).map fun v => (k0, v)) =
      keys.filterMap fun k0 => (f k0).map fun v => (k0, canon v) := by
  induction keys with
  | nil => rfl
  | cons k0 rest ih =>
    cases hf : f k0 <;> simp [List.filterMap_cons, hf, canonFields, ih]

end Json

namespace Server

theorem generateConfigHash_canon (D : Json) (h : Json.wf D = true) :
    generateConfigHash (Json.canon D) = generateConfigHash D := by
  unfold generateConfigHash
  have h1 : (hashSourceKeys.filterMap fun k =>
        ((Json.canon D).lookup k).map fun v => (k, v)) =
      hashSourceKeys.filterMap fun k =>
        (D.lookup k).map fun v => (k, Json.canon v) := by
    apply List.filterMap_congr
    intro k _
    rw [Json.lookup_canon D h k]
    cases D.lookup k <;> rfl
  rw [h1, ← Json.canonFields_filterMap_keyed hashSourceKeys fun k => D.lookup k]
  apply Json.serialize_obj_congr
  intro k _
  rw [Json.lookupField_canonFields]
  cases hv : Json.lookupField
      (hashSourceKeys.filterMap fun k0 => (D.lookup k0).map fun v => (k0, v))
      k with
  | none => rfl
  | some v =>
    rw [Json.lookupField_filterMap_keyed hashSourceKeys (fun k0 => D.lookup k0)
      k] at hv
    by_cases hm : k ∈ hashSourceKeys
    · rw [if_pos hm] at hv
      have hser :=
        Json.serialize_canon v (Json.wf_lookup D k v h hv) sortedHashKeys
      simp [hser]
    · rw [if_neg hm] at hv
      cases hv

theorem lookupField_fieldsOf (j : Json) (k : String) :
    Json.lookupField j.fieldsOf k = j.lookup k := by
  cases j <;> rfl

theorem lookup_obj (fs : List (String × Json)) (k : String) :
    (Json.obj fs).lookup k = Json.lookupField fs k := rfl

theorem metaField_backupCheckDoc (D : Json) (h : String) (k : String) :
    metaField (backupCheckDoc D h) k =
      if k = "configHash" then some (.str h) else metaField D k := by
  unfold metaField backupCheckDoc
  rw [lookup_obj, Json.lookupField_setKey_self, Option.some_bind, lookup_obj]
  rcases eq_or_ne k "configHash" with hk | hk
  · subst hk
    rw [if_pos rfl, Json.lookupField_setKey_self]
  · rw [if_neg hk, Json.lookupField_setKey_ne _ _ _ _ (Ne.symm hk)]
    cases hD : D.lookup "metadata" with
    | none => simp [Json.fieldsOfOpt, Json.lookupField]
    | some j => simp [Json.fieldsOfOpt, lookupField_fieldsOf]

theorem lookup_backupCheckDoc_ne (D : Json) (h : String) (k : String)
    (hk : k ≠ "metadata") : (backupCheckDoc D h).lookup k = D.lookup k := by
  unfold backupCheckDoc
  rw [lookup_obj, Json.lookupField_setKey_ne _ _ _ _ (Ne.symm hk),
    lookupField_fieldsOf]

theorem generateConfigHash_backupCheckDoc (D : Json) (h : String) :
    generateConfigHash (backupCheckDoc D h) = generateConfigHash D := by
  unfold generateConfigHash
  have heq : (hashSourceKeys.filterMap fun k =>
        ((backupCheckDoc D h).lookup k).map fun v => (k, v)) =
      hashSourceKeys.filterMap fun k => (D.lookup k).map fun v => (k, v) := by
    apply List.filterMap_congr
    intro k hk
    have hne : k ≠ "metadata" := by
      rintro rfl
      revert hk
      decide
    rw [lookup_backupCheckDoc_ne D h k hne]
  rw [heq]

theorem stampMeta_lookup_ne (D : Json) (a b k : String)
    (hk : k ≠ "metadata") : (stampMeta D a b).lookup k = D.lookup k := by
  unfold stampMeta
  rw [lookup_obj, Json.lookupField_setKey_ne _ _ _ _ (Ne.symm hk),
    lookupField_fieldsOf]

theorem stampMeta_metadata (D : Json) (a b : String) :
    (stampMeta D a b).lookup "metadata" =
      some (.obj (Json.setKey
        (Json.setKey (Json.fieldsOfOpt (D.lookup "metadata")) "lastModified"
          (.str a))
        "configHash" (.str b))) := by
  unfold stampMeta
  rw [lookup_obj, Json.lookupField_setKey_self]

theorem stampLastBackup_lookup_ne (D : Json) (a k : String)
    (hk : k ≠ "metadata") : (stampLastBackup D a).lookup k = D.lookup k := by
  unfold stampLastBackup
  rw [lookup_obj, Json.lookupField_setKey_ne _ _ _ _ (Ne.symm hk),
    lookupField_fieldsOf]

theorem stampLastBackup_metadata (D : Json) (a : String) :
    (stampLastBackup D a).lookup "metadata" =
      some (.obj (Json.setKey (Json.fieldsOfOpt (D.lookup "metadata"))
        "lastBackup" (.str a))) := by
  unfold stampLastBackup
  rw [lookup_obj, Json.lookupField_setKey_self]

theorem saveConfig_configFile (parseMs : String → Int) (nowIso : String)
    (nowMs : Int) (D : Json) (st : State) :
    (saveConfig parseMs nowIso nowMs D st).2.1.configFile =
      some (stampMeta D nowIso (generateConfigHash D)) ∨
    (saveConfig parseMs nowIso nowMs D st).2.1.configFile =
      some (stampLastBackup (stampMeta D nowIso (generateConfigHash D))
        nowIso) := by
  unfold saveConfig
  cases hcf : st.configFile with
  | none => left; rfl
  | some ex =>
    cases hn : shouldCreateBackup parseMs nowMs
        (backupCheckDoc ex (generateConfigHash D))
    · left
      simp [hn]
    · right
      simp [hn]

theorem length_setKey (l : List (String × Json)) (k : String) (v : Json) :
    (Json.setKey l k v).length ≤ l.length + 1 := by
  induction l with
  | nil => simp [Json.setKey]
  | cons p rest ih =>
    obtain ⟨k', v'⟩ := p
    by_cases h : k' = k <;> simp [Json.setKey, h]
    omega

theorem createBackup_small (nowIso : String) (st : State) (live : Json)
    (lsvs : List Json) (hcf : st.configFile = some live)
    (hlsv : live.lookup "services" = some (.arr lsvs))
    (hlen : (Json.setKey st.backups (backupFilename nowIso) live).length ≤
      10) :
    createBackup nowIso st = (some (backupFilename nowIso),
      ⟨some live, Json.setKey st.backups (backupFilename nowIso) live⟩,
      [.check configPath, .read configPath,
        .copy configPath (joinPath backupDir (backupFilename nowIso)),
        .scan backupDir]) := by
  have hobj : ∃ fs, live = .obj fs := by
    cases live <;> first
      | exact ⟨_, rfl⟩
      | simp [Json.lookup] at hlsv
  obtain ⟨fs, hfs⟩ := hobj
  have hcond : (Json.truthy (some live) &&
      Json.truthy (live.lookup "services") &&
      Json.isArr (live.lookup "services")) = true := by
    rw [hlsv, hfs]
    rfl
  obtain ⟨cf, bks⟩ := st
  have hcf2 : cf = some live := hcf
  subst hcf2
  have htr : ((List.insertionSort (fun a b => strLeJs a b = true)
      (((Json.setKey bks (backupFilename nowIso) live).map
        Prod.fst).filter isBackupName)).reverse).drop 10 = [] := by
    apply List.drop_eq_nil_of_le
    rw [List.length_reverse, (List.perm_insertionSort _ _).length_eq]
    calc (((Json.setKey bks (backupFilename nowIso) live).map
          Prod.fst).filter isBackupName).length
        ≤ ((Json.setKey bks (backupFilename nowIso) live).map
          Prod.fst).length := List.length_filter_le _ _
      _ = (Json.setKey bks (backupFilename nowIso) live).length :=
          List.length_map _ _
      _ ≤ 10 := hlen
  simp only [createBackup, hcond, Bool.not_true, Bool.false_eq_true,
    if_false, htr, List.map_nil, List.append_nil, List.contains_nil,
    Bool.not_false, List.filter_true]

theorem createBackup_success (nowIso : String) (st : State) (live : Json)
    (lsvs : List Json) (hcf : st.configFile = some live)
    (hlsv : live.lookup "services" = some (.arr lsvs)) :
    (createBackup nowIso st).1 = some (backupFilename nowIso) ∧
    List.Sublist [FsOp.copy configPath
        (joinPath backupDir (backupFilename nowIso))]
      (createBackup nowIso st).2.2 := by
  have hobj : ∃ fs, live = .obj fs := by
    cases live <;> first
      | exact ⟨_, rfl⟩
      | simp [Json.lookup] at hlsv
  obtain ⟨fs, hfs⟩ := hobj
  have hcond : (Json.truthy (some live) &&
      Json.truthy (live.lookup "services") &&
      Json.isArr (live.lookup "services")) = true := by
    rw [hlsv, hfs]
    rfl
  obtain ⟨cf, bks⟩ := st
  have hcf2 : cf = some live := hcf
  subst hcf2
  constructor
  · simp only [createBackup, hcond, Bool.not_true, Bool.false_eq_true,
      if_false]
  · simp only [createBackup, hcond, Bool.not_true, Bool.false_eq_true,
      if_false]
    refine List.Sublist.trans ?_ (List.sublist_append_left _ _)
    exact List.Sublist.cons _ (List.Sublist.cons _
      (List.Sublist.cons₂ _ (List.nil_sublist _)))

theorem saveConfig_backups_stable (parseMs : String → Int)
    (nowIso : String) (nowMs : Int) (D : Json) (st : State) (live : Json)
    (lsvs : List Json) (hcf : st.configFile = some live)
    (hlsv : live.lookup "services" = some (.arr lsvs))
    (hself : Json.lookupField st.backups (backupFilename nowIso) =
      some live)
    (hlen : st.backups.length ≤ 10) :
    (saveConfig parseMs nowIso nowMs D st).2.1.backups = st.backups := by
  obtain ⟨cf, bks⟩ := st
  have hcf2 : cf = some live := hcf
  subst hcf2
  have hsk : Json.setKey bks (backupFilename nowIso) live = bks :=
    Json.setKey_of_lookup _ _ _ hself
  unfold saveConfig
  cases hneed : shouldCreateBackup parseMs nowMs
      (backupCheckDoc live (generateConfigHash D))
  · simp [hneed]
  · simp only [hneed, if_true]
    rw [createBackup_small nowIso ⟨some live, bks⟩ live lsvs rfl hlsv
      (by rw [hsk]; exact hlen)]
    simp [hsk]

theorem saveConfig_write_sublist (parseMs : String → Int) (nowIso : String)
    (nowMs : Int) (D : Json) (st : State) :
    List.Sublist [FsOp.write configPath]
      (saveConfig parseMs nowIso nowMs D st).2.2 := by
  have hgen : ∀ (pre mid : List FsOp),
      List.Sublist [FsOp.write configPath]
        (pre ++ mid ++ [FsOp.write configPath]) := by
    intro pre mid
    rw [List.append_assoc]
    exact (List.sublist_append_right mid [FsOp.write configPath]).trans
      (List.sublist_append_right pre _)
  unfold saveConfig
  cases hcf : st.configFile with
  | none =>
    exact ((List.nil_sublist []).cons₂ _).cons _
  | some ex =>
    show List.Sublist [FsOp.write configPath]
      ([FsOp.check configPath, FsOp.read configPath] ++
        (if shouldCreateBackup parseMs nowMs
            (backupCheckDoc ex (generateConfigHash D)) = true
          then createBackup nowIso st else (none, st, [])).2.2 ++
        [FsOp.write configPath])
    exact hgen _ _

theorem saveConfig_fst (parseMs : String → Int) (nowIso : String)
    (nowMs : Int) (D : Json) (st : State) :
    (saveConfig parseMs nowIso nowMs D st).1 = true := by
  unfold saveConfig
  cases st.configFile <;> rfl

theorem filter_not_contains_of_disjoint (l d : List String)
    (h : ∀ x ∈ l, x ∉ d) : (l.filter fun x => !(d.contains x)) = l :=
  List.filter_eq_self.mpr fun a ha => by simp [h a ha]

theorem filter_not_contains_of_subset (l d : List String)
    (h : ∀ x ∈ l, x ∈ d) : (l.filter fun x => !(d.contains x)) = [] :=
  List.filter_eq_nil_iff.mpr fun a ha => by simp [h a ha]

theorem filter_not_drop_contains (l : List String) (n : Nat) (h : l.Nodup) :
    (l.filter fun x => !((l.drop n).contains x)) = l.take n := by
  have hnd : (l.take n ++ l.drop n).Nodup := by
    rw [List.take_append_drop]
    exact h
  rw [List.nodup_append] at hnd
  have hsplit :
      (l.filter fun x => !((l.drop n).contains x)) =
        ((l.take n).filter fun x => !((l.drop n).contains x)) ++
          ((l.drop n).filter fun x => !((l.drop n).contains x)) := by
    rw [← List.filter_append, List.take_append_drop]
  rw [hsplit,
    filter_not_contains_of_disjoint _ _ fun x hx => hnd.2.2 hx,
    filter_not_contains_of_subset _ _ fun x hx => hx,
    List.append_nil]

end Server

/-! Claim theorems. -/

/-- C7: for every pair of well-formed Configuration Documents that differ
only by the order in which object keys were inserted (at any nesting level —
same canonical key-sorted form), `generateConfigHash` returns identical
hashes. -/
theorem c7_hash_key_order_independent (D D' : Json) (hD : Json.wf D = true)
    (hD' : Json.wf D' = true) (hc : Json.canon D = Json.canon D') :
    Server.generateConfigHash D = Server.generateConfigHash D' := by
  rw [← Server.generateConfigHash_canon D hD, hc,
    Server.generateConfigHash_canon D' hD']

/-- Witness for C7: `exampleDocB` is `exampleDocA` with keys reinserted in a
different order at four nesting levels, and the hashes agree. -/
theorem c7_witness :
    Json.wf exampleDocA = true ∧ Json.wf exampleDocB = true ∧
      Json.canon exampleDocA = Json.canon exampleDocB ∧
      Server.generateConfigHash exampleDocA =
        Server.generateConfigHash exampleDocB :=
  ⟨by decide, by decide, by decide,
    c7_hash_key_order_independent exampleDocA exampleDocB (by decide)
      (by decide) (by decide)⟩

/-- C8 (implicit): the content hash never observes nested fields.  The array
replacer of `JSON.stringify` filters the members of every object at every
depth, so each service entry serializes as an empty object and the whole
`settings` object serializes as empty; two documents agreeing on service
count and on the top-level values of `theme`, `gridColumns`,
`collapsedCategories` and `categoryOrder` therefore hash identically, however
their services' name/url/icon/category/description fields or their settings
values differ. -/
theorem c8_hash_blind_to_nested_fields (D₁ D₂ : Json) (xs₁ xs₂ : List Json)
    (s₁ s₂ : List (String × Json))
    (hsv₁ : D₁.lookup "services" = some (.arr xs₁))
    (hsv₂ : D₂.lookup "services" = some (.arr xs₂))
    (hlen : xs₁.length = xs₂.length)
    (hx₁ : ∀ e ∈ xs₁, ∃ fs, e = Json.obj fs ∧
      ∀ k ∈ Server.sortedHashKeys, Json.lookupField fs k = none)
    (hx₂ : ∀ e ∈ xs₂, ∃ fs, e = Json.obj fs ∧
      ∀ k ∈ Server.sortedHashKeys, Json.lookupField fs k = none)
    (hset₁ : D₁.lookup "settings" = some (.obj s₁))
    (hset₂ : D₂.lookup "settings" = some (.obj s₂))
    (hs₁ : ∀ k ∈ Server.sortedHashKeys, Json.lookupField s₁ k = none)
    (hs₂ : ∀ k ∈ Server.sortedHashKeys, Json.lookupField s₂ k = none)
    (hth : D₁.lookup "theme" = D₂.lookup "theme")
    (hgc : D₁.lookup "gridColumns" = D₂.lookup "gridColumns")
    (hcc : D₁.lookup "collapsedCategories" = D₂.lookup "collapsedCategories")
    (hco : D₁.lookup "categoryOrder" = D₂.lookup "categoryOrder") :
    Server.generateConfigHash D₁ = Server.generateConfigHash D₂ := by
  unfold Server.generateConfigHash
  apply Json.serialize_obj_congr
  intro k hk
  rw [Json.lookupField_filterMap_keyed Server.hashSourceKeys
      (fun k0 => D₁.lookup k0) k,
    Json.lookupField_filterMap_keyed Server.hashSourceKeys
      (fun k0 => D₂.lookup k0) k]
  have hks : Server.sortedHashKeys =
      ["categoryOrder", "collapsedCategories", "gridColumns", "services",
        "settings", "theme"] := by decide
  rw [hks] at hk
  simp only [List.mem_cons, List.not_mem_nil, or_false] at hk
  rcases hk with rfl | rfl | rfl | rfl | rfl | rfl
  · rw [if_pos (by decide), if_pos (by decide), hco]
  · rw [if_pos (by decide), if_pos (by decide), hcc]
  · rw [if_pos (by decide), if_pos (by decide), hgc]
  · rw [if_pos (by decide), if_pos (by decide), hsv₁, hsv₂]
    simp only [Option.map_some']
    simp only [Json.serialize]
    rw [Json.serializeList_dropped Server.sortedHashKeys xs₁ xs₂ hlen hx₁ hx₂]
  · rw [if_pos (by decide), if_pos (by decide), hset₁, hset₂]
    simp only [Option.map_some']
    rw [Json.serialize_obj_dropped Server.sortedHashKeys s₁ hs₁,
      Json.serialize_obj_dropped Server.sortedHashKeys s₂ hs₂]
  · rw [if_pos (by decide), if_pos (by decide), hth]

/-- Witness for C8: `exampleDocC` has a completely different service and
different settings than `exampleDocA`, yet the hashes agree. -/
theorem c8_witness :
    Homedash.exampleDocA.lookup "services" ≠
        Homedash.exampleDocC.lookup "services" ∧
      Homedash.exampleDocA.lookup "settings" ≠
        Homedash.exampleDocC.lookup "settings" ∧
      Server.generateConfigHash exampleDocA =
        Server.generateConfigHash exampleDocC :=
  ⟨by decide, by decide,
    c8_hash_blind_to_nested_fields exampleDocA exampleDocC
      [.obj [("name", .str "Grafana"), ("url", .str "http://grafana.local:3000"),
        ("icon", .str "fas fa-chart-line"), ("category", .str "Monitoring"),
        ("description", .str "Analytics")]]
      [.obj [("name", .str "Jellyfin"), ("url", .str "http://jellyfin.local:8096"),
        ("icon", .str "fas fa-tv"), ("category", .str "Media"),
        ("description", .str "Media Server")]]
      [("timezone", .str "UTC"), ("autoSync", .bool true)]
      [("timezone", .str "Europe/Berlin"), ("autoSync", .bool false),
        ("customCSS", .str "body \x7b color: red \x7d")]
      (by decide) (by decide) (by decide)
      (fun e he => by
        simp only [List.mem_singleton] at he
        subst he
        exact ⟨_, rfl, by decide⟩)
      (fun e he => by
        simp only [List.mem_singleton] at he
        subst he
        exact ⟨_, rfl, by decide⟩)
      (by decide) (by decide) (by decide) (by decide) (by decide) (by decide)
      (by decide) (by decide)⟩

/-- C2: the change check returns `changed = (marker > since)` — strictly
greater, not not-equal — together with the current marker; at `since` equal
to the current marker it reports no change, and after a subsequent write
whose timestamp strictly advances the file mtime it reports a change. -/
theorem c2_check_for_changes (st : Variant.VState) (s : Int) :
    Variant.checkConfig (some s) st = ⟨decide (st.mtimeMs > s), st.mtimeMs⟩ ∧
      (Variant.checkConfig (some st.mtimeMs) st).changed = false ∧
      (∀ (body : Json) (nowIso : String) (nowMs : Int), st.mtimeMs < nowMs →
        (Variant.checkConfig (some st.mtimeMs)
          (Variant.putConfig nowIso nowMs body st).2).changed = true) := by
  refine ⟨rfl, by simp [Variant.checkConfig], ?_⟩
  intro body nowIso nowMs h
  simp [Variant.checkConfig, Variant.putConfig, h]

/-- Witness for C2 at marker 5: a poll with an older marker reports a
change, a poll with the current marker does not, and a poll after a later
write does again. -/
theorem c2_witness :
    Variant.checkConfig (some 3) ⟨.null, 5, []⟩ = ⟨true, 5⟩ ∧
      (Variant.checkConfig (some 5) ⟨.null, 5, []⟩).changed = false ∧
      (Variant.checkConfig (some 5)
        (Variant.putConfig "2025-01-01T00:00:00.000Z" 7 .null
          ⟨.null, 5, []⟩).2).changed = true := by
  obtain ⟨h1, h2, h3⟩ := c2_check_for_changes ⟨.null, 5, []⟩ 3
  exact ⟨h1.trans (by decide), h2,
    h3 .null "2025-01-01T00:00:00.000Z" 7 (by decide)⟩

/-- C10: for a well-formed absolute URL that is not in the cache, a fetch
that times out, fails to connect, or answers with a non-success status makes
the proxy return a normal HTTP 200 response carrying `cached: false` and the
original url as fallback, within the 10-second abort bound, leaving the cache
untouched; no path raises an error to the caller. -/
theorem c10_icon_proxy_fallback (u : String) (req : Variant.IconRequest)
    (net : Variant.NetBehavior) (cache : List String)
    (hu : req.url = some u) (hne : u ≠ "") (hv : req.urlValid = true)
    (hc : ∀ e, cache.contains (req.urlHash ++ e) = false)
    (hfail : (Variant.fetchWithTimeout net).2 = .aborted ∨
      (Variant.fetchWithTimeout net).2 = .connFailed ∨
      ∃ ct, (Variant.fetchWithTimeout net).2 = .response false ct) :
    (Variant.iconProxy req net cache).1 = .fallback u ∧
      ((Variant.iconProxy req net cache).1).status = 200 ∧
      (Variant.iconProxy req net cache).2.1 = cache ∧
      (Variant.iconProxy req net cache).2.2 ≤ 10000 := by
  have helapsed : (Variant.fetchWithTimeout net).1 ≤ 10000 := by
    cases net <;> simp [Variant.fetchWithTimeout] <;> split <;> omega
  have hne' : (u == "") = false := by
    simp [hne]
  simp only [Variant.iconProxy, hu, hne', hv, hc, Bool.false_eq_true,
    if_false, Bool.not_true, Bool.false_eq_true]
  rcases hfail with h | h | ⟨ct, h⟩ <;> rw [h] <;>
    simp [Variant.ProxyResponse.status, helapsed]

/-- Witness for C10: an unreachable host for an uncached URL falls back to
the original URL with a 200 after the full 10-second abort window. -/
theorem c10_witness :
    (Variant.iconProxy
        ⟨some "http://icons.example/x.png", true, ".png", "abcd1234"⟩
        .hang []).1 = .fallback "http://icons.example/x.png" ∧
      ((Variant.iconProxy
        ⟨some "http://icons.example/x.png", true, ".png", "abcd1234"⟩
        .hang []).1).status = 200 ∧
      (Variant.iconProxy
        ⟨some "http://icons.example/x.png", true, ".png", "abcd1234"⟩
        .hang []).2.1 = [] ∧
      (Variant.iconProxy
        ⟨some "http://icons.example/x.png", true, ".png", "abcd1234"⟩
        .hang []).2.2 ≤ 10000 :=
  c10_icon_proxy_fallback "http://icons.example/x.png"
    ⟨some "http://icons.example/x.png", true, ".png", "abcd1234"⟩
    .hang [] rfl (by decide) rfl (fun e => rfl) (Or.inl rfl)

/-- C1 (amended part): in the full server, a write whose payload's
`services` is missing or not an array is rejected with HTTP 400
(`ValidationError`), the stored state — config file and backups alike — is
untouched, and no filesystem operation at all is performed, so the previous
on-disk bytes are unchanged. -/
theorem c1_invalid_write_rejected (parseMs : String → Int) (nowIso : String)
    (nowMs : Int) (body : Json) (st : Server.State)
    (h : ∀ xs, body.lookup "services" ≠ some (.arr xs)) :
    Server.postConfig parseMs nowIso nowMs body st =
      (.badRequest "Invalid configuration: services must be an array", st,
        []) ∧
      Server.SaveResponse.status (Server.postConfig parseMs nowIso nowMs body
        st).1 = 400 := by
  have hmain : Server.postConfig parseMs nowIso nowMs body st =
      (.badRequest "Invalid configuration: services must be an array", st,
        []) := by
    unfold Server.postConfig
    split
    · next svs heq => exact absurd heq (h svs)
    · rfl
  exact ⟨hmain, by rw [hmain]; rfl⟩

/-- Witness for C1's amended theorem: a payload with no `services` key is
rejected and the state survives unchanged. -/
theorem c1_witness :
    Server.postConfig (fun _ => 0) "2025-01-01T00:00:00.000Z" 0
        (.obj [("theme", .str "light")]) ⟨some exampleDocA, []⟩ =
      (.badRequest "Invalid configuration: services must be an array",
        ⟨some exampleDocA, []⟩, []) ∧
      Server.SaveResponse.status (Server.postConfig (fun _ => 0)
        "2025-01-01T00:00:00.000Z" 0 (.obj [("theme", .str "light")])
        ⟨some exampleDocA, []⟩).1 = 400 :=
  c1_invalid_write_rejected (fun _ => 0) "2025-01-01T00:00:00.000Z" 0
    (.obj [("theme", .str "light")]) ⟨some exampleDocA, []⟩
    (fun _ h => Option.noConfusion h)

/-- Counterexample to C1 as stated: the simple-variant `PUT /api/config`
endpoint (also cited by the claim) performs no validation: a payload with no
`services` field is accepted with HTTP 200 and the stored document is
replaced, not preserved. -/
theorem c1_counterexample :
    (Variant.putConfig "2025-01-01T00:00:01.000Z" 6
        (.obj [("theme", .str "light")])
        ⟨.obj [("services", .arr []),
          ("metadata", .obj [("lastModified", .str "2025-01-01T00:00:00.000Z")])],
          5, []⟩).1 = ⟨true, 6⟩ ∧
      (Variant.putConfig "2025-01-01T00:00:01.000Z" 6
        (.obj [("theme", .str "light")])
        ⟨.obj [("services", .arr []),
          ("metadata", .obj [("lastModified", .str "2025-01-01T00:00:00.000Z")])],
          5, []⟩).2.configFile ≠
        .obj [("services", .arr []),
          ("metadata", .obj [("lastModified", .str "2025-01-01T00:00:00.000Z")])] := by
  constructor
  · rfl
  · decide

/-- C4 (amended part): in the full server, a restore filename containing
`..` or a path separator is rejected with HTTP 400 before any filesystem
access: the state is untouched and the performed filesystem-operation list is
empty — in particular the traversal check precedes the existence check. -/
theorem c4_traversal_guard_first (parseMs : String → Int)
    (t0 nowIso : String) (nowMs : Int) (filename : String)
    (st : Server.State) (h : Server.hasTraversal filename = true) :
    Server.restore parseMs t0 nowIso nowMs filename st =
      (.invalidFilename, st, []) ∧
      Server.RestoreResponse.status (Server.restore parseMs t0 nowIso nowMs
        filename st).1 = 400 := by
  have hmain : Server.restore parseMs t0 nowIso nowMs filename st =
      (.invalidFilename, st, []) := by
    unfold Server.restore
    rw [if_pos h]
  exact ⟨hmain, by rw [hmain]; rfl⟩

/-- Witness for C4's amended theorem at a concrete traversal filename. -/
theorem c4_witness :
    Server.restore (fun _ => 0) "2025-01-01T00:00:00.000Z"
        "2025-01-01T00:00:01.000Z" 0 "..secret.json" ⟨some exampleDocA, []⟩ =
      (.invalidFilename, ⟨some exampleDocA, []⟩, []) ∧
      Server.RestoreResponse.status (Server.restore (fun _ => 0)
        "2025-01-01T00:00:00.000Z" "2025-01-01T00:00:01.000Z" 0
        "..secret.json" ⟨some exampleDocA, []⟩).1 = 400 :=
  c4_traversal_guard_first (fun _ => 0) "2025-01-01T00:00:00.000Z"
    "2025-01-01T00:00:01.000Z" 0 "..secret.json" ⟨some exampleDocA, []⟩
    (by decide)

/-- Counterexample to C4 as stated: the simple-variant restore endpoint
(also cited by the claim) has no traversal guard at all.  For the filename
`..backup.json`, which contains `..`, it does not fail with PathTraversal —
it probes the filesystem at a path derived from the filename (an existence
check) and answers 404. -/
theorem c4_counterexample :
    Server.hasTraversal "..backup.json" = true ∧
      (Variant.restore 1 "..backup.json" ⟨.null, 0, []⟩).1 = .notFound ∧
      (Variant.restore 1 "..backup.json" ⟨.null, 0, []⟩).2.2 =
        [.check "data/backups/..backup.json"] := by
  exact ⟨by decide, rfl, rfl⟩

/-- C5 (amended part): every successful restore on the full server answers
with the backup's name, service count and the safety-backup result;
afterwards the stored document agrees, outside `metadata`, with the backup
payload merged over the default configuration (missing newer fields get
defaults), its metadata carries `restoredFrom = filename` and `restoredAt`
stamped to the restore time, and the config file is written; moreover,
whenever a pre-restore live document exists, it is first snapshotted as a
safety backup (the safety step returns the timestamped backup filename) and
the copy of the live document into the backup directory precedes the write
of the config file in the filesystem trace. -/
theorem c5_restore_semantics (parseMs : String → Int) (t0 nowIso : String)
    (nowMs : Int) (filename : String) (st : Server.State) (B : Json)
    (svs : List Json)
    (hnt : Server.hasTraversal filename = false)
    (hbk : Json.lookupField st.backups filename = some B)
    (hsvB : B.lookup "services" = some (.arr svs))
    (hval : Server.findInvalid svs 0 = none) :
    (Server.restore parseMs t0 nowIso nowMs filename st).1 =
      .restored filename svs.length (Server.createBackup nowIso st).1 ∧
    (∀ k, k ≠ "metadata" →
      ((Server.restore parseMs t0 nowIso nowMs filename
        st).2.1.configFile.bind fun d => d.lookup k) =
      Json.lookupField
        (Json.mergeFields (Server.defaultFields t0) B.fieldsOf) k) ∧
    ((Server.restore parseMs t0 nowIso nowMs filename
      st).2.1.configFile.bind fun d => Server.metaField d "restoredFrom") =
      some (.str filename) ∧
    ((Server.restore parseMs t0 nowIso nowMs filename
      st).2.1.configFile.bind fun d => Server.metaField d "restoredAt") =
      some (.str nowIso) ∧
    List.Sublist [FsOp.write configPath]
      (Server.restore parseMs t0 nowIso nowMs filename st).2.2 ∧
    (∀ (live : Json) (lsvs : List Json), st.configFile = some live →
      live.lookup "services" = some (.arr lsvs) →
      (Server.createBackup nowIso st).1 =
        some (Server.backupFilename nowIso) ∧
      List.Sublist
        [FsOp.copy configPath
          (joinPath backupDir (Server.backupFilename nowIso)),
          FsOp.write configPath]
        (Server.restore parseMs t0 nowIso nowMs filename st).2.2) := by
  have hr : Server.restore parseMs t0 nowIso nowMs filename st =
      (.restored filename svs.length (Server.createBackup nowIso st).1,
        (Server.saveConfig parseMs nowIso nowMs
          (.obj (Json.setKey
            (Json.mergeFields (Server.defaultFields t0) B.fieldsOf)
            "metadata"
            (.obj (Json.setKey (Json.setKey (Json.setKey
              (Json.mergeFields
                (Json.fieldsOfOpt ((Server.defaultConfig t0).lookup
                  "metadata"))
                (Json.fieldsOfOpt (B.lookup "metadata")))
              "lastModified" (.str nowIso))
              "restoredFrom" (.str filename))
              "restoredAt" (.str nowIso)))))
          (Server.createBackup nowIso st).2.1).2.1,
        [FsOp.check (joinPath backupDir filename)] ++
          (Server.createBackup nowIso st).2.2 ++
          [FsOp.read (joinPath backupDir filename)] ++
          (Server.saveConfig parseMs nowIso nowMs
            (.obj (Json.setKey
              (Json.mergeFields (Server.defaultFields t0) B.fieldsOf)
              "metadata"
              (.obj (Json.setKey (Json.setKey (Json.setKey
                (Json.mergeFields
                  (Json.fieldsOfOpt ((Server.defaultConfig t0).lookup
                    "metadata"))
                  (Json.fieldsOfOpt (B.lookup "metadata")))
                "lastModified" (.str nowIso))
                "restoredFrom" (.str filename))
                "restoredAt" (.str nowIso)))))
            (Server.createBackup nowIso st).2.1).2.2) := by
    unfold Server.restore
    simp only [hnt, Bool.false_eq_true, if_false, hbk, hsvB, hval,
      Server.saveConfig_fst, if_true]
  rw [hr]
  set RC : Json := .obj (Json.setKey
      (Json.mergeFields (Server.defaultFields t0) B.fieldsOf) "metadata"
      (.obj (Json.setKey (Json.setKey (Json.setKey
        (Json.mergeFields
          (Json.fieldsOfOpt ((Server.defaultConfig t0).lookup "metadata"))
          (Json.fieldsOfOpt (B.lookup "metadata")))
        "lastModified" (.str nowIso))
        "restoredFrom" (.str filename))
        "restoredAt" (.str nowIso)))) with hRC
  set st1 : Server.State := (Server.createBackup nowIso st).2.1 with hst1
  have hRCk : ∀ k, k ≠ "metadata" → RC.lookup k =
      Json.lookupField
        (Json.mergeFields (Server.defaultFields t0) B.fieldsOf) k := by
    intro k hk
    rw [hRC, Server.lookup_obj,
      Json.lookupField_setKey_ne _ _ _ _ (Ne.symm hk)]
  have hRCmeta : RC.lookup "metadata" =
      some (.obj (Json.setKey (Json.setKey (Json.setKey
        (Json.mergeFields
          (Json.fieldsOfOpt ((Server.defaultConfig t0).lookup "metadata"))
          (Json.fieldsOfOpt (B.lookup "metadata")))
        "lastModified" (.str nowIso))
        "restoredFrom" (.str filename))
        "restoredAt" (.str nowIso))) := by
    rw [hRC, Server.lookup_obj, Json.lookupField_setKey_self]
  have hmf : ∀ cfg2 : Json,
      (cfg2 = Server.stampMeta RC nowIso (Server.generateConfigHash RC) ∨
        cfg2 = Server.stampLastBackup
          (Server.stampMeta RC nowIso (Server.generateConfigHash RC))
          nowIso) →
      ∀ mk, mk ≠ "lastModified" → mk ≠ "configHash" → mk ≠ "lastBackup" →
      Server.metaField cfg2 mk =
        Json.lookupField (Json.setKey (Json.setKey (Json.setKey
          (Json.mergeFields
            (Json.fieldsOfOpt ((Server.defaultConfig t0).lookup "metadata"))
            (Json.fieldsOfOpt (B.lookup "metadata")))
          "lastModified" (.str nowIso))
          "restoredFrom" (.str filename))
          "restoredAt" (.str nowIso)) mk := by
    intro cfg2 hc2 mk h1 h2 h3
    have hsm : ∀ mk', mk' ≠ "lastModified" → mk' ≠ "configHash" →
        Server.metaField
          (Server.stampMeta RC nowIso (Server.generateConfigHash RC)) mk' =
        Json.lookupField (Json.setKey (Json.setKey (Json.setKey
          (Json.mergeFields
            (Json.fieldsOfOpt ((Server.defaultConfig t0).lookup "metadata"))
            (Json.fieldsOfOpt (B.lookup "metadata")))
          "lastModified" (.str nowIso))
          "restoredFrom" (.str filename))
          "restoredAt" (.str nowIso)) mk' := by
      intro mk' h1' h2'
      unfold Server.metaField
      rw [Server.stampMeta_metadata, Option.some_bind, Server.lookup_obj,
        Json.lookupField_setKey_ne _ _ _ _ (Ne.symm h2'),
        Json.lookupField_setKey_ne _ _ _ _ (Ne.symm h1'), hRCmeta]
      rfl
    rcases hc2 with rfl | rfl
    · exact hsm mk h1 h2
    · unfold Server.metaField
      rw [Server.stampLastBackup_metadata, Option.some_bind,
        Server.lookup_obj, Json.lookupField_setKey_ne _ _ _ _ (Ne.symm h3),
        Server.stampMeta_metadata]
      simp only [Json.fieldsOfOpt, Json.fieldsOf]
      rw [Json.lookupField_setKey_ne _ _ _ _ (Ne.symm h2),
        Json.lookupField_setKey_ne _ _ _ _ (Ne.symm h1), hRCmeta]
      rfl
  have hcfd := Server.saveConfig_configFile parseMs nowIso nowMs RC st1
  refine ⟨rfl, ?_, ?_, ?_, ?_, ?_⟩
  · intro k hk
    show ((Server.saveConfig parseMs nowIso nowMs RC st1).2.1.configFile.bind
        fun d => d.lookup k) =
      Json.lookupField
        (Json.mergeFields (Server.defaultFields t0) B.fieldsOf) k
    rcases hcfd with hcf2 | hcf2
    · rw [hcf2, Option.some_bind, Server.stampMeta_lookup_ne _ _ _ _ hk]
      exact hRCk k hk
    · rw [hcf2, Option.some_bind, Server.stampLastBackup_lookup_ne _ _ _ hk,
        Server.stampMeta_lookup_ne _ _ _ _ hk]
      exact hRCk k hk
  · show ((Server.saveConfig parseMs nowIso nowMs RC st1).2.1.configFile.bind
        fun d => Server.metaField d "restoredFrom") = some (.str filename)
    rcases hcfd with hcf2 | hcf2
    · rw [hcf2, Option.some_bind,
        hmf _ (Or.inl rfl) "restoredFrom" (by decide) (by decide) (by decide),
        Json.lookupField_setKey_ne _ "restoredAt" "restoredFrom" _ (by decide),
        Json.lookupField_setKey_self]
    · rw [hcf2, Option.some_bind,
        hmf _ (Or.inr rfl) "restoredFrom" (by decide) (by decide) (by decide),
        Json.lookupField_setKey_ne _ "restoredAt" "restoredFrom" _ (by decide),
        Json.lookupField_setKey_self]
  · show ((Server.saveConfig parseMs nowIso nowMs RC st1).2.1.configFile.bind
        fun d => Server.metaField d "restoredAt") = some (.str nowIso)
    rcases hcfd with hcf2 | hcf2
    · rw [hcf2, Option.some_bind,
        hmf _ (Or.inl rfl) "restoredAt" (by decide) (by decide) (by decide),
        Json.lookupField_setKey_self]
    · rw [hcf2, Option.some_bind,
        hmf _ (Or.inr rfl) "restoredAt" (by decide) (by decide) (by decide),
        Json.lookupField_setKey_self]
  · show List.Sublist [FsOp.write configPath]
      ([FsOp.check (joinPath backupDir filename)] ++
        (Server.createBackup nowIso st).2.2 ++
        [FsOp.read (joinPath backupDir filename)] ++
        (Server.saveConfig parseMs nowIso nowMs RC st1).2.2)
    exact (Server.saveConfig_write_sublist parseMs nowIso nowMs RC st1).trans
      (List.sublist_append_right _ _)
  · intro live lsvs hlive hlsv
    have hcb := Server.createBackup_success nowIso st live lsvs hlive hlsv
    refine ⟨hcb.1, ?_⟩
    show List.Sublist
      [FsOp.copy configPath
        (joinPath backupDir (Server.backupFilename nowIso)),
        FsOp.write configPath]
      ([FsOp.check (joinPath backupDir filename)] ++
        (Server.createBackup nowIso st).2.2 ++
        [FsOp.read (joinPath backupDir filename)] ++
        (Server.saveConfig parseMs nowIso nowMs RC st1).2.2)
    have h1 : List.Sublist
        [FsOp.copy configPath
          (joinPath backupDir (Server.backupFilename nowIso))]
        ([FsOp.check (joinPath backupDir filename)] ++
          (Server.createBackup nowIso st).2.2 ++
          [FsOp.read (joinPath backupDir filename)]) :=
      (hcb.2.trans (List.sublist_append_right _ _)).trans
        (List.sublist_append_left _ _)
    exact h1.append (Server.saveConfig_write_sublist parseMs nowIso nowMs RC
      st1)

/-- Witness for C5: a concrete successful restore.  The store holds a live
document and one backup named `b-json` whose payload has an empty `services`
array and a `theme` field; after the restore the stored document carries
`metadata.restoredFrom = "b-json"` and the backup's `theme` value. -/
theorem c5_witness :
    Server.hasTraversal "b-json" = false ∧
    ((Server.restore (fun _ => 0) "t0" "now" 0 "b-json"
      ⟨some (Json.obj [("services", Json.arr [])]),
        [("b-json", Json.obj [("services", Json.arr []),
          ("theme", Json.str "light")])]⟩).2.1.configFile.bind fun d =>
      Server.metaField d "restoredFrom") = some (.str "b-json") ∧
    ((Server.restore (fun _ => 0) "t0" "now" 0 "b-json"
      ⟨some (Json.obj [("services", Json.arr [])]),
        [("b-json", Json.obj [("services", Json.arr []),
          ("theme", Json.str "light")])]⟩).2.1.configFile.bind fun d =>
      d.lookup "theme") = some (.str "light") ∧
    (Server.createBackup "now"
      ⟨some (Json.obj [("services", Json.arr [])]),
        [("b-json", Json.obj [("services", Json.arr []),
          ("theme", Json.str "light")])]⟩).1 =
      some (Server.backupFilename "now") := by
  have h := c5_restore_semantics (fun _ => 0) "t0" "now" 0 "b-json"
    ⟨some (Json.obj [("services", Json.arr [])]),
      [("b-json", Json.obj [("services", Json.arr []),
        ("theme", Json.str "light")])]⟩
    (Json.obj [("services", Json.arr []), ("theme", Json.str "light")]) []
    (by decide) rfl rfl rfl
  refine ⟨by decide, h.2.2.1, ?_,
    (h.2.2.2.2.2 (Json.obj [("services", Json.arr [])]) [] rfl rfl).1⟩
  rw [h.2.1 "theme" (by decide)]
  decide

/-- Counterexample for C5 as stated of the simple-variant restore endpoint
(start-server.sh 418-431), which the claim also cites: the restore succeeds,
but the resulting document is the backup's payload verbatim — no merge over
the default document (the default-only key `gridColumns` is absent), no
`metadata.restoredFrom`/`restoredAt` stamping (there is no metadata at
all) — and no safety snapshot of the pre-restore live document is taken (the
backup list is unchanged and the trace has no copy of the config file into
the backup directory). -/
theorem c5_counterexample :
    (Variant.restore 5 "b.json"
      ⟨Json.obj [("services", Json.arr []), ("theme", Json.str "dark")], 1,
        [("b.json", Json.obj [("services", Json.arr [])])]⟩).1 = .ok ∧
    (Variant.restore 5 "b.json"
      ⟨Json.obj [("services", Json.arr []), ("theme", Json.str "dark")], 1,
        [("b.json", Json.obj [("services", Json.arr [])])]⟩).2.1.configFile =
      Json.obj [("services", Json.arr [])] ∧
    ((Variant.restore 5 "b.json"
      ⟨Json.obj [("services", Json.arr []), ("theme", Json.str "dark")], 1,
        [("b.json", Json.obj [("services", Json.arr [])])]⟩).2.1.configFile
      ).lookup "metadata" = none ∧
    ((Variant.restore 5 "b.json"
      ⟨Json.obj [("services", Json.arr []), ("theme", Json.str "dark")], 1,
        [("b.json", Json.obj [("services", Json.arr [])])]⟩).2.1.configFile
      ).lookup "gridColumns" = none ∧
    (Variant.restore 5 "b.json"
      ⟨Json.obj [("services", Json.arr []), ("theme", Json.str "dark")], 1,
        [("b.json", Json.obj [("services", Json.arr [])])]⟩).2.1.backups =
      [("b.json", Json.obj [("services", Json.arr [])])] ∧
    (Variant.restore 5 "b.json"
      ⟨Json.obj [("services", Json.arr []), ("theme", Json.str "dark")], 1,
        [("b.json", Json.obj [("services", Json.arr [])])]⟩).2.2 =
      [FsOp.check (joinPath backupDir "b.json"),
        FsOp.read (joinPath backupDir "b.json"),
        FsOp.write configPath] :=
  ⟨rfl, rfl, rfl, rfl, rfl, rfl⟩

/-- C6: the conditional-backup policy.  (1) disabled backups never fire;
(2) with backups enabled but no prior backup timestamp it fires
unconditionally; (3) before the cadence window has elapsed it never fires;
(4) after the window it fires exactly when the content hash of the document
differs from the stored `metadata.configHash`; (5) consequently a second
save whose hash-relevant content is unchanged never fires — the policy is
evaluated on the previous document with `configHash` replaced by the new
document's hash, metadata is not hash-relevant, so the two hashes coincide —
even when the cadence window has elapsed. -/
theorem c6_should_backup_policy :
    (∀ (parseMs : String → Int) (nowMs : Int) (cfg : Json),
      Server.metaField cfg "backupEnabled" = some (.bool false) →
      Server.shouldCreateBackup parseMs nowMs cfg = false) ∧
    (∀ (parseMs : String → Int) (nowMs : Int) (cfg : Json),
      Json.truthy (Server.metaField cfg "backupEnabled") = true →
      Json.truthy (Server.metaField cfg "lastBackup") = false →
      Server.shouldCreateBackup parseMs nowMs cfg = true) ∧
    (∀ (parseMs : String → Int) (nowMs : Int) (cfg : Json) (s : String)
      (c : Int),
      Json.truthy (Server.metaField cfg "backupEnabled") = true →
      Server.metaField cfg "lastBackup" = some (.str s) → s ≠ "" →
      Server.metaField cfg "backupCadenceMinutes" = some (.num c) → c ≠ 0 →
      nowMs - parseMs s < 60000 * c →
      Server.shouldCreateBackup parseMs nowMs cfg = false) ∧
    (∀ (parseMs : String → Int) (nowMs : Int) (cfg : Json) (s : String)
      (c : Int) (hsh : String),
      Json.truthy (Server.metaField cfg "backupEnabled") = true →
      Server.metaField cfg "lastBackup" = some (.str s) → s ≠ "" →
      Server.metaField cfg "backupCadenceMinutes" = some (.num c) → c ≠ 0 →
      60000 * c ≤ nowMs - parseMs s →
      Server.metaField cfg "configHash" = some (.str hsh) →
      (Server.shouldCreateBackup parseMs nowMs cfg = true ↔
        Server.generateConfigHash cfg ≠ hsh)) ∧
    (∀ (parseMs : String → Int) (nowMs : Int) (D : Json) (hsh s : String),
      Server.generateConfigHash D = hsh →
      Server.metaField D "lastBackup" = some (.str s) → s ≠ "" →
      Server.shouldCreateBackup parseMs nowMs
        (Server.backupCheckDoc D hsh) = false) := by
  refine ⟨?_, ?_, ?_, ?_, ?_⟩
  · intro parseMs nowMs cfg h
    simp [Server.shouldCreateBackup, h, Json.truthy]
  · intro parseMs nowMs cfg h1 h2
    simp [Server.shouldCreateBackup, h1, h2]
  · intro parseMs nowMs cfg s c h1 hlb hsne hc hcne hlt
    have ht : Json.truthy (some (Json.str s)) = true := by
      simp [Json.truthy, hsne]
    simp [Server.shouldCreateBackup, h1, hlb, ht, hc, hcne, hlt]
  · intro parseMs nowMs cfg s c hsh h1 hlb hsne hc hcne hge hh
    have ht : Json.truthy (some (Json.str s)) = true := by
      simp [Json.truthy, hsne]
    simp [Server.shouldCreateBackup, h1, hlb, ht, hc, hcne, hh,
      not_lt.mpr hge, bne_iff_ne]
  · intro parseMs nowMs D hsh s hh hlb hsne
    have h1 : Server.metaField (Server.backupCheckDoc D hsh)
        "backupEnabled" = Server.metaField D "backupEnabled" :=
      (Server.metaField_backupCheckDoc D hsh "backupEnabled").trans
        (if_neg (by decide))
    have h2 : Server.metaField (Server.backupCheckDoc D hsh) "lastBackup" =
        some (.str s) :=
      ((Server.metaField_backupCheckDoc D hsh "lastBackup").trans
        (if_neg (by decide))).trans hlb
    have h3 : Server.metaField (Server.backupCheckDoc D hsh)
        "backupCadenceMinutes" = Server.metaField D "backupCadenceMinutes" :=
      (Server.metaField_backupCheckDoc D hsh "backupCadenceMinutes").trans
        (if_neg (by decide))
    have h4 : Server.metaField (Server.backupCheckDoc D hsh) "configHash" =
        some (.str hsh) :=
      (Server.metaField_backupCheckDoc D hsh "configHash").trans
        (if_pos rfl)
    have h5 : Server.generateConfigHash (Server.backupCheckDoc D hsh) =
        hsh :=
      (Server.generateConfigHash_backupCheckDoc D hsh).trans hh
    cases htr : Json.truthy (Server.metaField D "backupEnabled") with
    | false => simp [Server.shouldCreateBackup, h1, htr]
    | true =>
      simp only [Server.shouldCreateBackup, h1, htr, h2, h3, h4, h5]
      simp only [Json.truthy, Bool.not_true, Bool.false_eq_true, if_false]
      have hs : (decide ¬s = "") = true := by simp [hsne]
      simp only [hs, Bool.not_true, Bool.false_eq_true, if_false]
      split
      · rfl
      · simp

/-- Witness for C6: the five policy facts at concrete documents — backups
disabled, no prior timestamp, inside the cadence window, past the window
with an equal and with a differing hash, and the second-save scenario. -/
theorem c6_witness :
    Server.shouldCreateBackup (fun _ => 0) 0
        (.obj [("metadata", .obj [("backupEnabled", .bool false)])]) =
      false ∧
    Server.shouldCreateBackup (fun _ => 0) 0
        (.obj [("metadata", .obj [("backupEnabled", .bool true)])]) = true ∧
    Server.shouldCreateBackup (fun _ => 0) 60000
        (.obj [("metadata", .obj [("backupEnabled", .bool true),
          ("lastBackup", .str "t0"), ("backupCadenceMinutes", .num 60)])]) =
      false ∧
    (Server.shouldCreateBackup (fun _ => 0) 3600000
        (.obj [("metadata", .obj [("backupEnabled", .bool true),
          ("lastBackup", .str "t0"), ("backupCadenceMinutes", .num 60),
          ("configHash", .str "old")])]) = true ↔
      Server.generateConfigHash
        (.obj [("metadata", .obj [("backupEnabled", .bool true),
          ("lastBackup", .str "t0"), ("backupCadenceMinutes", .num 60),
          ("configHash", .str "old")])]) ≠ "old") ∧
    Server.shouldCreateBackup (fun _ => 0) 3600000
        (Server.backupCheckDoc
          (.obj [("metadata", .obj [("backupEnabled", .bool true),
            ("lastBackup", .str "t0"), ("backupCadenceMinutes", .num 60),
            ("configHash", .str "old")])])
          (Server.generateConfigHash
            (.obj [("metadata", .obj [("backupEnabled", .bool true),
              ("lastBackup", .str "t0"), ("backupCadenceMinutes", .num 60),
              ("configHash", .str "old")])]))) = false := by
  obtain ⟨p1, p2, p3, p4, p5⟩ := c6_should_backup_policy
  refine ⟨p1 (fun _ => 0) 0 _ (by decide),
    p2 (fun _ => 0) 0 _ (by decide) (by decide),
    p3 (fun _ => 0) 60000 _ "t0" 60 (by decide) (by decide) (by decide)
      (by decide) (by decide) (by decide),
    p4 (fun _ => 0) 3600000 _ "t0" 60 "old" (by decide) (by decide)
      (by decide) (by decide) (by decide) (by decide) (by decide),
    p5 (fun _ => 0) 3600000 _ _ "t0" rfl (by decide) (by decide)⟩

/-- C3 (amended part): whenever the full server's `createBackup` completes
(config present with a services array), it returns the timestamped filename
and afterwards at most 10 `config-backup-` files remain, and they are (up to
directory order) the first 10 of the descending lexicographic sort of the
names present after the new backup was written — the 10 most recent.
Moreover, from an empty backup directory, 11 consecutive calls with
increasing timestamps leave exactly the 10 most recent files; the oldest has
been deleted. -/
theorem c3_retention_after_create (nowIso : String) (st : Server.State)
    (cfg : Json) (svs : List Json)
    (hcf : st.configFile = some cfg)
    (hsv : cfg.lookup "services" = some (.arr svs))
    (hnodup : (st.backups.map Prod.fst).Nodup) :
    ((Server.createBackup nowIso st).1 =
        some (Server.backupFilename nowIso) ∧
      (((Server.createBackup nowIso st).2.1.backups.map Prod.fst).filter
        Server.isBackupName).length ≤ 10 ∧
      (((Server.createBackup nowIso st).2.1.backups.map Prod.fst).filter
        Server.isBackupName).Perm
        (((List.insertionSort (fun a b => strLeJs a b = true)
          (((Json.setKey st.backups (Server.backupFilename nowIso)
            cfg).map Prod.fst).filter Server.isBackupName)).reverse).take
          10)) ∧
      ((["T01", "T02", "T03", "T04", "T05", "T06", "T07", "T08", "T09",
          "T10", "T11"].foldl
          (fun s t => (Server.createBackup t s).2.1)
          ⟨some (.obj [("services", .arr [])]), []⟩).backups.map Prod.fst =
        ["config-backup-T02.json", "config-backup-T03.json",
          "config-backup-T04.json", "config-backup-T05.json",
          "config-backup-T06.json", "config-backup-T07.json",
          "config-backup-T08.json", "config-backup-T09.json",
          "config-backup-T10.json", "config-backup-T11.json"] ∧
        "config-backup-T01.json" ∉
          (["T01", "T02", "T03", "T04", "T05", "T06", "T07", "T08", "T09",
            "T10", "T11"].foldl
            (fun s t => (Server.createBackup t s).2.1)
            ⟨some (.obj [("services", .arr [])]), []⟩).backups.map
            Prod.fst) := by
  have hobj : ∃ fs, cfg = .obj fs := by
    cases cfg <;> first
      | exact ⟨_, rfl⟩
      | simp [Json.lookup] at hsv
  obtain ⟨fs, rfl⟩ := hobj
  have hcond : (Json.truthy (some (Json.obj fs)) &&
      Json.truthy ((Json.obj fs).lookup "services") &&
      Json.isArr ((Json.obj fs).lookup "services")) = true := by
    rw [hsv]
    rfl
  refine ⟨?_, by decide, by decide⟩
  simp only [Server.createBackup, hcf, hcond, Bool.not_true,
    Bool.false_eq_true, if_false]
  set name := Server.backupFilename nowIso with hname
  set backups1 := Json.setKey st.backups name (Json.obj fs) with hb1
  set prefixed := (backups1.map Prod.fst).filter Server.isBackupName
    with hpre
  set sortedDesc :=
    (List.insertionSort (fun a b => strLeJs a b = true) prefixed).reverse
    with hsd
  have hnames1 : (backups1.map Prod.fst).Nodup := by
    rw [hb1]
    exact Json.nodup_keys_setKey st.backups name (Json.obj fs) hnodup
  have hprednodup : prefixed.Nodup := hnames1.filter _
  have hps : sortedDesc.Perm prefixed :=
    (List.reverse_perm _).trans (List.perm_insertionSort _ _)
  have hsortnodup : sortedDesc.Nodup := (hps.nodup_iff).mpr hprednodup
  have hkept :
      (((backups1.filter fun p =>
          !((sortedDesc.drop 10).contains p.1)).map Prod.fst).filter
        Server.isBackupName).Perm (sortedDesc.take 10) := by
    rw [Json.keys_filter backups1
      (fun n => !((sortedDesc.drop 10).contains n)), List.filter_filter]
    have hsw1 : ((backups1.map Prod.fst).filter fun a =>
        Server.isBackupName a && !((sortedDesc.drop 10).contains a)) =
        ((backups1.map Prod.fst).filter fun a =>
          !((sortedDesc.drop 10).contains a) && Server.isBackupName a) :=
      List.filter_congr fun x _ => Bool.and_comm _ _
    have hsw2 : ((backups1.map Prod.fst).filter fun a =>
        !((sortedDesc.drop 10).contains a) && Server.isBackupName a) =
        (prefixed.filter fun n => !((sortedDesc.drop 10).contains n)) := by
      rw [hpre, List.filter_filter]
    rw [hsw1, hsw2]
    have hperm2 : (prefixed.filter fun n =>
        !((sortedDesc.drop 10).contains n)).Perm
        (sortedDesc.filter fun n => !((sortedDesc.drop 10).contains n)) :=
      hps.symm.filter _
    rw [Server.filter_not_drop_contains sortedDesc 10 hsortnodup] at hperm2
    exact hperm2
  refine ⟨trivial, ?_, hkept⟩
  rw [hkept.length_eq]
  exact List.length_take_le 10 sortedDesc

/-- Witness for C3's amended theorem: one completed backup from an empty
directory, plus the evaluated 11-call retention scenario. -/
theorem c3_witness :
    ((Server.createBackup "T01"
          ⟨some (.obj [("services", .arr [])]), []⟩).1 =
        some (Server.backupFilename "T01") ∧
      (((Server.createBackup "T01"
          ⟨some (.obj [("services", .arr [])]), []⟩).2.1.backups.map
          Prod.fst).filter Server.isBackupName).length ≤ 10 ∧
      (((Server.createBackup "T01"
          ⟨some (.obj [("services", .arr [])]), []⟩).2.1.backups.map
          Prod.fst).filter Server.isBackupName).Perm
        (((List.insertionSort (fun a b => strLeJs a b = true)
          (((Json.setKey ([] : List (String × Json))
            (Server.backupFilename "T01")
            (.obj [("services", .arr [])])).map Prod.fst).filter
            Server.isBackupName)).reverse).take 10)) ∧
      ((["T01", "T02", "T03", "T04", "T05", "T06", "T07", "T08", "T09",
          "T10", "T11"].foldl
          (fun s t => (Server.createBackup t s).2.1)
          ⟨some (.obj [("services", .arr [])]), []⟩).backups.map Prod.fst =
        ["config-backup-T02.json", "config-backup-T03.json",
          "config-backup-T04.json", "config-backup-T05.json",
          "config-backup-T06.json", "config-backup-T07.json",
          "config-backup-T08.json", "config-backup-T09.json",
          "config-backup-T10.json", "config-backup-T11.json"] ∧
        "config-backup-T01.json" ∉
          (["T01", "T02", "T03", "T04", "T05", "T06", "T07", "T08", "T09",
            "T10", "T11"].foldl
            (fun s t => (Server.createBackup t s).2.1)
            ⟨some (.obj [("services", .arr [])]), []⟩).backups.map
            Prod.fst) :=
  c3_retention_after_create "T01" ⟨some (.obj [("services", .arr [])]), []⟩
    (.obj [("services", .arr [])]) [] rfl (by decide) (by decide)

/-- C9 (amended): a save immediately followed by a load returns the saved
document except for restamped metadata.  In the simple variant (PUT then GET
/api/config) the only changed field is `metadata.lastModified`, exactly as
the claim states.  In the full server, `saveConfig` additionally restamps
`metadata.configHash` (and `metadata.lastBackup` when the save triggered a
backup): every top-level field and every other metadata field of the loaded
document equals the saved one, `lastModified` carries the save time and
`configHash` the new content hash. -/
theorem c9_save_load_roundtrip :
    (∀ (nowIso : String) (nowMs : Int) (body : Json)
      (st : Variant.VState) (mfs : List (String × Json)),
      body.lookup "metadata" = some (.obj mfs) →
      (∀ k, k ≠ "metadata" →
        (Variant.getConfig
          (Variant.putConfig nowIso nowMs body st).2).1.lookup k =
          body.lookup k) ∧
      (∀ mk, mk ≠ "lastModified" →
        Server.metaField
          (Variant.getConfig (Variant.putConfig nowIso nowMs body st).2).1
          mk = Server.metaField body mk) ∧
      Server.metaField
        (Variant.getConfig (Variant.putConfig nowIso nowMs body st).2).1
        "lastModified" = some (.str nowIso)) ∧
    (∀ (parseMs : String → Int) (t0 nowIso : String) (nowMs : Int)
      (D : Json) (st : Server.State) (dm : List (String × Json)),
      D.lookup "metadata" = some (.obj dm) →
      (D.fieldsOf.map Prod.fst).Nodup →
      (∀ k, k ≠ "metadata" →
        Json.lookupField (Server.defaultFields t0) k ≠ none →
        D.lookup k ≠ none) →
      (∀ k, k ≠ "metadata" →
        (Server.loadConfig t0
          (Server.saveConfig parseMs nowIso nowMs D st).2.1).1.lookup k =
          D.lookup k) ∧
      (∀ mk, mk ∉ (["lastModified", "configHash", "lastBackup"] :
          List String) →
        Server.metaField (Server.loadConfig t0
          (Server.saveConfig parseMs nowIso nowMs D st).2.1).1 mk =
          Server.metaField D mk) ∧
      Server.metaField (Server.loadConfig t0
        (Server.saveConfig parseMs nowIso nowMs D st).2.1).1
        "lastModified" = some (.str nowIso) ∧
      Server.metaField (Server.loadConfig t0
        (Server.saveConfig parseMs nowIso nowMs D st).2.1).1 "configHash" =
        some (.str (Server.generateConfigHash D))) := by
  constructor
  · intro nowIso nowMs body st mfs hm
    have hput : (Variant.getConfig
        (Variant.putConfig nowIso nowMs body st).2).1 =
        .obj (Json.setKey body.fieldsOf "metadata"
          (.obj (Json.setKey (Json.fieldsOfOpt (body.lookup "metadata"))
            "lastModified" (.str nowIso)))) := rfl
    have hbody : ∀ mk, Server.metaField body mk = Json.lookupField mfs mk := by
      intro mk
      unfold Server.metaField
      rw [hm, Option.some_bind, Server.lookup_obj]
    have hloadedMeta : ∀ mk, Server.metaField (Variant.getConfig
        (Variant.putConfig nowIso nowMs body st).2).1 mk =
        Json.lookupField (Json.setKey mfs "lastModified" (.str nowIso)) mk := by
      intro mk
      rw [hput]
      unfold Server.metaField
      rw [Server.lookup_obj, Json.lookupField_setKey_self, Option.some_bind,
        Server.lookup_obj, hm]
      rfl
    refine ⟨?_, ?_, ?_⟩
    · intro k hk
      rw [hput, Server.lookup_obj,
        Json.lookupField_setKey_ne _ _ _ _ (Ne.symm hk),
        Server.lookupField_fieldsOf]
    · intro mk hmk
      rw [hloadedMeta mk, hbody mk,
        Json.lookupField_setKey_ne _ _ _ _ (Ne.symm hmk)]
    · rw [hloadedMeta "lastModified", Json.lookupField_setKey_self]
  · intro parseMs t0 nowIso nowMs D st dm hm hnodup hdef
    have hmain : ∀ cfg2 : Json,
        (∀ k, k ≠ "metadata" → cfg2.lookup k = D.lookup k) →
        (∀ F2, cfg2.lookup "metadata" = some (.obj F2) →
          ((cfg2.fieldsOf.map Prod.fst).Nodup) →
          (∀ mk, mk ≠ "lastModified" → mk ≠ "configHash" →
            mk ≠ "lastBackup" →
            Json.lookupField F2 mk = Json.lookupField dm mk) →
          Json.lookupField F2 "lastModified" = some (.str nowIso) →
          Json.lookupField F2 "configHash" =
            some (.str (Server.generateConfigHash D)) →
          (Server.loadConfig t0
            (Server.saveConfig parseMs nowIso nowMs D st).2.1).1 =
            .obj (Json.mergeFields (Server.defaultFields t0) cfg2.fieldsOf) →
          (∀ k, k ≠ "metadata" →
            (Server.loadConfig t0
              (Server.saveConfig parseMs nowIso nowMs D st).2.1).1.lookup k =
              D.lookup k) ∧
          (∀ mk, mk ∉ (["lastModified", "configHash", "lastBackup"] :
              List String) →
            Server.metaField (Server.loadConfig t0
              (Server.saveConfig parseMs nowIso nowMs D st).2.1).1 mk =
              Server.metaField D mk) ∧
          Server.metaField (Server.loadConfig t0
            (Server.saveConfig parseMs nowIso nowMs D st).2.1).1
            "lastModified" = some (.str nowIso) ∧
          Server.metaField (Server.loadConfig t0
            (Server.saveConfig parseMs nowIso nowMs D st).2.1).1
            "configHash" =
            some (.str (Server.generateConfigHash D))) := by
      intro cfg2 hA F2 hMeta hnod2 hF2ne hF2lm hF2ch hload
      have hDm : ∀ mk, Server.metaField D mk = Json.lookupField dm mk := by
        intro mk
        unfold Server.metaField
        rw [hm, Option.some_bind, Server.lookup_obj]
      have hMfield : Json.lookupField cfg2.fieldsOf "metadata" =
          some (.obj F2) := by
        rw [Server.lookupField_fieldsOf, hMeta]
      have hLmeta : (Server.loadConfig t0
          (Server.saveConfig parseMs nowIso nowMs D st).2.1).1.lookup
          "metadata" = some (.obj F2) := by
        rw [hload, Server.lookup_obj,
          Json.lookupField_mergeFields_of_some _ _ _ _ hnod2 hMfield]
      have hLmf : ∀ mk, Server.metaField (Server.loadConfig t0
          (Server.saveConfig parseMs nowIso nowMs D st).2.1).1 mk =
          Json.lookupField F2 mk := by
        intro mk
        unfold Server.metaField
        rw [hLmeta, Option.some_bind, Server.lookup_obj]
      refine ⟨?_, ?_, ?_, ?_⟩
      · intro k hk
        rw [hload, Server.lookup_obj]
        cases hDk : D.lookup k with
        | some v =>
          have h2 : Json.lookupField cfg2.fieldsOf k = some v := by
            rw [Server.lookupField_fieldsOf, hA k hk, hDk]
          exact Json.lookupField_mergeFields_of_some _ _ _ _ hnod2 h2
        | none =>
          have h2 : Json.lookupField cfg2.fieldsOf k = none := by
            rw [Server.lookupField_fieldsOf, hA k hk, hDk]
          rw [Json.lookupField_mergeFields_of_none _ _ _ h2]
          by_cases hdflt : Json.lookupField (Server.defaultFields t0) k = none
          · exact hdflt
          · exact absurd hDk (hdef k hk hdflt)
      · intro mk hmk
        simp only [List.mem_cons, List.not_mem_nil, or_false, not_or] at hmk
        rw [hLmf mk, hDm mk, hF2ne mk hmk.1 hmk.2.1 hmk.2.2]
      · rw [hLmf "lastModified", hF2lm]
      · rw [hLmf "configHash", hF2ch]
    rcases Server.saveConfig_configFile parseMs nowIso nowMs D st with
      hcf | hcf
    · refine hmain (Server.stampMeta D nowIso (Server.generateConfigHash D))
        (fun k hk => Server.stampMeta_lookup_ne D _ _ k hk)
        (Json.setKey (Json.setKey dm "lastModified" (.str nowIso))
          "configHash" (.str (Server.generateConfigHash D)))
        ?_ ?_ ?_ ?_ ?_ ?_
      · rw [Server.stampMeta_metadata, hm]
        rfl
      · exact Json.nodup_keys_setKey _ _ _ hnodup
      · intro mk h1 h2 h3
        rw [Json.lookupField_setKey_ne _ _ _ _ (Ne.symm h2),
          Json.lookupField_setKey_ne _ _ _ _ (Ne.symm h1)]
      · rw [Json.lookupField_setKey_ne _ _ _ _ (by decide),
          Json.lookupField_setKey_self]
      · rw [Json.lookupField_setKey_self]
      · simp only [Server.loadConfig, hcf]
    · refine hmain (Server.stampLastBackup
          (Server.stampMeta D nowIso (Server.generateConfigHash D)) nowIso)
        (fun k hk => (Server.stampLastBackup_lookup_ne _ _ k hk).trans
          (Server.stampMeta_lookup_ne D _ _ k hk))
        (Json.setKey (Json.setKey (Json.setKey dm "lastModified"
          (.str nowIso)) "configHash"
          (.str (Server.generateConfigHash D))) "lastBackup" (.str nowIso))
        ?_ ?_ ?_ ?_ ?_ ?_
      · rw [Server.stampLastBackup_metadata, Server.stampMeta_metadata, hm]
        rfl
      · exact Json.nodup_keys_setKey _ _ _
          (Json.nodup_keys_setKey _ _ _ hnodup)
      · intro mk h1 h2 h3
        rw [Json.lookupField_setKey_ne _ _ _ _ (Ne.symm h3),
          Json.lookupField_setKey_ne _ _ _ _ (Ne.symm h2),
          Json.lookupField_setKey_ne _ _ _ _ (Ne.symm h1)]
      · rw [Json.lookupField_setKey_ne _ _ _ _ (by decide),
          Json.lookupField_setKey_ne _ _ _ _ (by decide),
          Json.lookupField_setKey_self]
      · rw [Json.lookupField_setKey_ne _ _ _ _ (by decide),
          Json.lookupField_setKey_self]
      · simp only [Server.loadConfig, hcf]

/-- Witness for C9's amended theorem: a concrete roundtrip on both servers —
top-level fields and untouched metadata fields survive, `lastModified` (and
on the full server `configHash`) are restamped. -/
theorem c9_witness :
    ((Variant.getConfig (Variant.putConfig "t1" 7 exampleDocA
        ⟨.null, 0, []⟩).2).1.lookup "services" =
      exampleDocA.lookup "services" ∧
    Server.metaField (Variant.getConfig (Variant.putConfig "t1" 7
        exampleDocA ⟨.null, 0, []⟩).2).1 "backupEnabled" =
      Server.metaField exampleDocA "backupEnabled" ∧
    Server.metaField (Variant.getConfig (Variant.putConfig "t1" 7
        exampleDocA ⟨.null, 0, []⟩).2).1 "lastModified" =
      some (.str "t1")) ∧
    ((Server.loadConfig "t0" (Server.saveConfig (fun _ => 0) "t1" 7
        exampleDocA ⟨none, []⟩).2.1).1.lookup "theme" =
      exampleDocA.lookup "theme" ∧
    Server.metaField (Server.loadConfig "t0" (Server.saveConfig (fun _ => 0)
        "t1" 7 exampleDocA ⟨none, []⟩).2.1).1 "backupEnabled" =
      Server.metaField exampleDocA "backupEnabled" ∧
    Server.metaField (Server.loadConfig "t0" (Server.saveConfig (fun _ => 0)
        "t1" 7 exampleDocA ⟨none, []⟩).2.1).1 "lastModified" =
      some (.str "t1") ∧
    Server.metaField (Server.loadConfig "t0" (Server.saveConfig (fun _ => 0)
        "t1" 7 exampleDocA ⟨none, []⟩).2.1).1 "configHash" =
      some (.str (Server.generateConfigHash exampleDocA))) := by
  obtain ⟨hvar, hsrv⟩ := c9_save_load_roundtrip
  have hv := hvar "t1" 7 exampleDocA ⟨.null, 0, []⟩
    [("version", .str "1.0.0"),
      ("lastModified", .str "2025-01-01T00:00:00.000Z"),
      ("backupEnabled", .bool true),
      ("lastBackup", .str "2025-01-01T00:00:00.000Z"),
      ("backupCadenceMinutes", .num 60), ("configHash", .str "stale")]
    (by decide)
  have hdefkeys : ∀ k, k ≠ "metadata" →
      Json.lookupField (Server.defaultFields "t0") k ≠ none →
      exampleDocA.lookup k ≠ none := by
    intro k hk hdf
    have hmem : k ∈ (Server.defaultFields "t0").map Prod.fst := by
      by_contra hnm
      exact hdf ((Json.lookupField_eq_none_iff _ _).mpr hnm)
    have hkeys : (Server.defaultFields "t0").map Prod.fst =
        ["services", "collapsedCategories", "gridColumns", "theme",
          "settings", "metadata"] := by decide
    rw [hkeys] at hmem
    simp only [List.mem_cons, List.not_mem_nil, or_false] at hmem
    rcases hmem with rfl | rfl | rfl | rfl | rfl | rfl <;> decide
  have hs := hsrv (fun _ => 0) "t0" "t1" 7 exampleDocA ⟨none, []⟩
    [("version", .str "1.0.0"),
      ("lastModified", .str "2025-01-01T00:00:00.000Z"),
      ("backupEnabled", .bool true),
      ("lastBackup", .str "2025-01-01T00:00:00.000Z"),
      ("backupCadenceMinutes", .num 60), ("configHash", .str "stale")]
    (by decide) (by decide) hdefkeys
  exact ⟨⟨hv.1 "services" (by decide), hv.2.1 "backupEnabled" (by decide),
      hv.2.2⟩,
    ⟨hs.1 "theme" (by decide), hs.2.1 "backupEnabled" (by decide),
      hs.2.2.1, hs.2.2.2⟩⟩

/-- Counterexample to C9 as stated: on the full server the roundtrip also
restamps `metadata.configHash`, so a document saved with a stale stored hash
does not come back equal except for `lastModified` alone. -/
theorem c9_counterexample :
    Server.metaField (Server.loadConfig "t0"
        (Server.saveConfig (fun _ => 0) "t1" 0
          (.obj [("services", .arr []),
            ("metadata", .obj [("configHash", .str "stale")])])
          ⟨some (.obj [("services", .arr []),
            ("metadata", .obj [("configHash", .str "stale")])]), []⟩).2.1).1
        "configHash" ≠
      Server.metaField
        (.obj [("services", .arr []),
          ("metadata", .obj [("configHash", .str "stale")])])
        "configHash" := by
  decide

/-- Counterexample to C3 as stated: the simple-variant `POST /api/backups`
endpoint (also cited by the claim) performs no retention pruning: after 11
consecutive backup creations all 11 files remain. -/
theorem c3_counterexample :
    ((["b01", "b02", "b03", "b04", "b05", "b06", "b07", "b08", "b09",
        "b10", "b11"].foldl
        (fun st n => (Variant.createBackup "t" (some n) st).2)
        ⟨.obj [("services", .arr [])], 0, []⟩).backups).length = 11 := by
  decide

end Homedash
